import Mathlib

/-!
# SolarSimulations: orbital mechanics and visibility core

A shallow embedding of the simulation core of the repository
(`orbit_physics.cpp`, `Tracker.cpp`, `main_3d_sat.cpp`) and proofs about it.

* C++ `double` is read as a real number (`ℝ`), `M_PI` as `Real.pi`.
* `std::vector` is read as `List`.
* A `while` loop is a function with an explicit iteration budget (`fuel`)
  that answers `none` when the budget runs out.
* A call that could signal a failure answers in `Option`.
* The 5400-step run of the numerical propagator is followed by an integer
  interval enclosure whose steps are proved to contain the real run.

Definitions come first, the theorems follow.
-/

namespace SolarSim

/-! ## Trail buffer (`Tracker.cpp` 128-129, `main_3d_sat.cpp` 186-187) -/

/-- One trail append: `trail.push_back(p); if (trail.size() > N) trail.erase(trail.begin());`. -/
def trailPush {α : Type} (N : Nat) (trail : List α) (p : α) : List α :=
  let pushed := trail ++ [p]
  if pushed.length > N then pushed.tail else pushed

/-- The trail after the points `ps` were appended one at a time to an empty trail. -/
def trailAfter {α : Type} (N : Nat) (ps : List α) : List α :=
  ps.foldl (trailPush N) []

/-- The breadcrumb trail of `Tracker.cpp`: capacity 1000. -/
def breadcrumbsAfter {α : Type} (ps : List α) : List α := trailAfter 1000 ps

/-- The per-satellite trail of `main_3d_sat.cpp`: capacity 150. -/
def satTrailAfter {α : Type} (ps : List α) : List α := trailAfter 150 ps

noncomputable section

open Real

/-! ## Constants -/

/-- `const double G = 6.67430e-11;` -/
def G : ℝ := 6.67430e-11

/-- `const double M_EARTH = 5.972e24;` -/
def M_EARTH : ℝ := 5.972e24

/-- `const double R_EARTH = 6371000.0;` -/
def R_EARTH : ℝ := 6371000.0

/-- `const double EARTH_ROTATION_SPEED = 7.2921159e-5;` -/
def EARTH_ROTATION_SPEED : ℝ := 7.2921159e-5

/-! ## Vector algebra -/

/-- `struct Vector3 { double x, y, z; ... }` -/
structure Vector3 where
  x : ℝ
  y : ℝ
  z : ℝ

namespace Vector3

/-- `operator+` -/
def add (a other : Vector3) : Vector3 := ⟨a.x + other.x, a.y + other.y, a.z + other.z⟩

/-- `operator*(double s)` -/
def scale (a : Vector3) (s : ℝ) : Vector3 := ⟨a.x * s, a.y * s, a.z * s⟩

/-- `magnitude()` -/
def magnitude (a : Vector3) : ℝ := Real.sqrt (a.x * a.x + a.y * a.y + a.z * a.z)

instance : Add Vector3 := ⟨Vector3.add⟩

instance : HMul Vector3 ℝ Vector3 := ⟨Vector3.scale⟩

end Vector3

/-! ## Numerical propagator -/

/-- `class Satellite` of `Tracker.cpp`. -/
structure Satellite where
  pos : Vector3
  vel : Vector3

/-- `Satellite::update` of `Tracker.cpp` (27-33). -/
def Satellite.update (s : Satellite) (dt : ℝ) : Satellite :=
  let r := s.pos.magnitude
  let accelMag := (G * M_EARTH) / (r * r * r)
  let accel := s.pos * (-accelMag)
  let vel := s.vel + (accel * dt)
  let pos := s.pos + (vel * dt)
  { pos := pos, vel := vel }

/-- `class Sattelite` of `orbit_physics.cpp`. -/
structure Sattelite where
  pos : Vector3
  vel : Vector3

/-- `Sattelite::update` of `orbit_physics.cpp` (37-52). -/
def Sattelite.update (s : Sattelite) (dt : ℝ) : Sattelite :=
  let r := s.pos.magnitude
  let accelMagnitude := (G * M_EARTH) / (r * r * r)
  let accel := s.pos * (-accelMagnitude)
  let vel := s.vel + (accel * dt)
  let pos := s.pos + (vel * dt)
  { pos := pos, vel := vel }

/-- What the caller of `Satellite::update` observes. The body is five
assignments: it has no `throw`, no status value and no assertion, so the call
always comes back with the stored state (`none` would stand for a signalled
failure). -/
def Satellite.updateCall (s : Satellite) (dt : ℝ) : Option Satellite :=
  some (s.update dt)

/-- What the caller of `Sattelite::update` (`orbit_physics.cpp`) observes; see
`Satellite.updateCall`. -/
def Sattelite.updateCall (s : Sattelite) (dt : ℝ) : Option Sattelite :=
  some (s.update dt)

/-! ## Rotating-frame geometry (`Tracker.cpp`) -/

/-- `getStationPos` of `Tracker.cpp` (37-54). -/
def getStationPos (lat lon time : ℝ) : Vector3 :=
  let latRad := lat * (π / 180.0)
  let lonRad := lon * (π / 180.0)
  let x := R_EARTH * Real.cos latRad * Real.cos lonRad
  let y := R_EARTH * Real.cos latRad * Real.sin lonRad
  let z := R_EARTH * Real.sin latRad
  let rotationAngle := EARTH_ROTATION_SPEED * time
  let x_rot := x * Real.cos rotationAngle - y * Real.sin rotationAngle
  let y_rot := x * Real.sin rotationAngle + y * Real.cos rotationAngle
  ⟨x_rot, y_rot, z⟩

/-- `std::atan2(y, x)` over the reals: the angle of the point `(x, y)` in
`(-π, π]`, and `0` at the origin. -/
def atan2 (y x : ℝ) : ℝ := Complex.arg ⟨x, y⟩

/-- `while (lon < -M_PI) lon += 2*M_PI;` with an iteration budget. -/
def whileBelow : Nat → ℝ → Option ℝ
  | 0, _ => none
  | fuel + 1, lon => if lon < -π then whileBelow fuel (lon + 2 * π) else some lon

/-- `while (lon > M_PI) lon -= 2*M_PI;` with an iteration budget. -/
def whileAbove : Nat → ℝ → Option ℝ
  | 0, _ => none
  | fuel + 1, lon => if lon > π then whileAbove fuel (lon - 2 * π) else some lon

/-- The two normalisation loops of `Tracker.cpp` (116-117), one after the other. -/
def normalizeLon (fuel : Nat) (lon : ℝ) : Option ℝ :=
  (whileBelow fuel lon).bind (whileAbove fuel)

/-- The ground-track computation of `Tracker.cpp` (113-119): longitude and
latitude (radians) of the inertial position `pos` at elapsed time `totalTime`. -/
def groundTrack (fuel : Nat) (pos : Vector3) (totalTime : ℝ) : Option (ℝ × ℝ) :=
  let lon := atan2 pos.y pos.x
  let lon := lon - (EARTH_ROTATION_SPEED * totalTime)
  (normalizeLon fuel lon).map fun lon =>
    let lat := Real.arcsin (pos.z / pos.magnitude)
    (lon, lat)

/-! ## Visibility -/

/-- `dotProd` of `Tracker.cpp` (133-135). -/
def trackerDotProd (cityPos3D satPos : Vector3) : ℝ :=
  let rangeVec : Vector3 :=
    ⟨satPos.x - cityPos3D.x, satPos.y - cityPos3D.y, satPos.z - cityPos3D.z⟩
  cityPos3D.x * rangeVec.x + cityPos3D.y * rangeVec.y + cityPos3D.z * rangeVec.z

/-- The horizon test `if (dotProd > 0)` of `Tracker.cpp` (146). -/
def trackerVisible (cityPos3D satPos : Vector3) : Prop :=
  trackerDotProd cityPos3D satPos > 0

/-- `dot` of `main_3d_sat.cpp` (210-212). -/
def sat3dDot (city3D posV : Vector3) : ℝ :=
  let vecToSat : Vector3 := ⟨posV.x - city3D.x, posV.y - city3D.y, posV.z - city3D.z⟩
  let cMag := Real.sqrt (city3D.x * city3D.x + city3D.y * city3D.y + city3D.z * city3D.z)
  (city3D.x / cMag * vecToSat.x) + (city3D.y / cMag * vecToSat.y)
    + (city3D.z / cMag * vecToSat.z)

/-- The horizon test `dot > 0` of `main_3d_sat.cpp` (214); the second conjunct
there, `cRot.z < 500`, is a camera cull and not part of the test. -/
def sat3dVisible (city3D posV : Vector3) : Prop :=
  sat3dDot city3D posV > 0

/-- The point at altitude `h` on the zenith line of `g`: `g + h * (g / |g|)`. -/
def zenithPoint (g : Vector3) (h : ℝ) : Vector3 :=
  ⟨g.x + h * (g.x / g.magnitude), g.y + h * (g.y / g.magnitude),
   g.z + h * (g.z / g.magnitude)⟩

/-- The point at depth `h` on the nadir line of `g`: `g - h * (g / |g|)`. -/
def nadirPoint (g : Vector3) (h : ℝ) : Vector3 :=
  ⟨g.x - h * (g.x / g.magnitude), g.y - h * (g.y / g.magnitude),
   g.z - h * (g.z / g.magnitude)⟩

/-! ## Keplerian propagator (`main_3d_sat.cpp`) -/

/-- `struct OrbitalElements`; the display fields (`name`, `color`, `trail`) are
not read by `getSatellitePosition` and are left out. -/
structure OrbitalElements where
  inclination : ℝ
  raan : ℝ
  ecc : ℝ
  argPerigee : ℝ
  meanAnomaly : ℝ
  meanMotion : ℝ

/-- Rounding toward zero, as `fmod` does with the quotient. -/
def truncToward0 (q : ℝ) : ℤ := if 0 ≤ q then ⌊q⌋ else ⌈q⌉

/-- `fmod(x, y)` over the reals: `x - n*y` with `n` the quotient `x/y` rounded
toward zero. -/
def fmod (x y : ℝ) : ℝ := x - (truncToward0 (x / y) : ℝ) * y

/-- One pass of the loop body of `main_3d_sat.cpp` line 41. -/
def keplerStep (ecc M E : ℝ) : ℝ :=
  E - (E - ecc * Real.sin E - M) / (1 - ecc * Real.cos E)

/-- `double E = M; for (int i = 0; i < 5; i++) E = ...;` -/
def keplerSolve (ecc M : ℝ) : ℝ := (keplerStep ecc M)^[5] M

/-- The residual `E - e*sin E - M` of Kepler's equation at `E`. -/
def keplerResidual (ecc M E : ℝ) : ℝ := E - ecc * Real.sin E - M

/-- The semi-major axis `a` computed in `getSatellitePosition` (line 43). -/
def semiMajorAxis (oe : OrbitalElements) : ℝ :=
  (G * M_EARTH / (oe.meanMotion * oe.meanMotion)) ^ ((1.0 : ℝ) / 3.0)

/-- The eccentric anomaly `E` computed in `getSatellitePosition` (lines 39-41). -/
def eccentricAnomaly (oe : OrbitalElements) (t : ℝ) : ℝ :=
  let M := fmod (oe.meanAnomaly + oe.meanMotion * t) (2 * π)
  keplerSolve oe.ecc M

/-- The orbital-plane coordinate `P` computed in `getSatellitePosition` (line 44). -/
def planeP (oe : OrbitalElements) (t : ℝ) : ℝ :=
  semiMajorAxis oe * (Real.cos (eccentricAnomaly oe t) - oe.ecc)

/-- The orbital-plane coordinate `Q` computed in `getSatellitePosition` (line 45). -/
def planeQ (oe : OrbitalElements) (t : ℝ) : ℝ :=
  semiMajorAxis oe * Real.sqrt (1 - oe.ecc * oe.ecc) * Real.sin (eccentricAnomaly oe t)

/-- `getSatellitePosition` of `main_3d_sat.cpp` (38-52). -/
def getSatellitePosition (oe : OrbitalElements) (t : ℝ) : Vector3 :=
  let M := fmod (oe.meanAnomaly + oe.meanMotion * t) (2 * π)
  let E := (keplerStep oe.ecc M)^[5] M
  let a := (G * M_EARTH / (oe.meanMotion * oe.meanMotion)) ^ ((1.0 : ℝ) / 3.0)
  let P := a * (Real.cos E - oe.ecc)
  let Q := a * Real.sqrt (1 - oe.ecc * oe.ecc) * Real.sin E
  let cO := Real.cos oe.raan
  let sO := Real.sin oe.raan
  let _ci := Real.cos oe.inclination
  let si := Real.sin oe.inclination
  let cw := Real.cos oe.argPerigee
  let sw := Real.sin oe.argPerigee
  let x := P * (cO * cw - sO * si * sw) - Q * (cO * sw + sO * si * cw)
  let y := P * (sO * cw + cO * si * sw) - Q * (sO * sw - cO * si * cw)
  let z := P * (si * sw) + Q * (si * cw)
  ⟨x, y, z⟩

/-- What the caller of `getSatellitePosition` observes. The body has no
`throw`, no status value and no check of `ecc` or `meanMotion`: the call always
comes back with a `Vector3` (`none` would stand for a signalled failure). -/
def getSatellitePositionCall (oe : OrbitalElements) (t : ℝ) : Option Vector3 :=
  some (getSatellitePosition oe t)

/-- Rotation about the z axis by `angle`. -/
def rotZ (angle : ℝ) (p : Vector3) : Vector3 :=
  ⟨p.x * Real.cos angle - p.y * Real.sin angle, p.x * Real.sin angle + p.y * Real.cos angle, p.z⟩

/-- Rotation about the x axis by `angle` (`rotateX` of `main_3d_sat.cpp`, 23-25). -/
def rotateX (p : Vector3) (angle : ℝ) : Vector3 :=
  ⟨p.x, p.y * Real.cos angle - p.z * Real.sin angle, p.y * Real.sin angle + p.z * Real.cos angle⟩

/-- The spec's rotation of step 5: the standard 3-1-3 Euler sequence
`Rz(raan) * Rx(inclination) * Rz(argPerigee)` applied to `(P, Q, 0)`. -/
def euler313 (raan inclination argPerigee P Q : ℝ) : Vector3 :=
  rotZ raan (rotateX (rotZ argPerigee ⟨P, Q, 0⟩) inclination)

/-- The spec's rotation of step 5 written out entry by entry. -/
def euler313Explicit (raan inclination argPerigee P Q : ℝ) : Vector3 :=
  let cO := Real.cos raan
  let sO := Real.sin raan
  let ci := Real.cos inclination
  let si := Real.sin inclination
  let cw := Real.cos argPerigee
  let sw := Real.sin argPerigee
  ⟨P * (cO * cw - sO * sw * ci) - Q * (cO * sw + sO * cw * ci),
   P * (sO * cw + cO * sw * ci) - Q * (sO * sw - cO * cw * ci),
   P * sw * si + Q * cw * si⟩

/-! ## The concrete scenario -/

/-- The start state of the concrete scenario. -/
def orbitStart : Sattelite := ⟨⟨6771000, 0, 0⟩, ⟨0, 7669.8, 0⟩⟩

/-- The state after `n` calls of `update(1.0)` from `orbitStart`. -/
def orbitAfter (n : ℕ) : Sattelite := (fun s => s.update 1.0)^[n] orbitStart

/-- The angle between two vectors, in radians. -/
def angleBetween (a b : Vector3) : ℝ :=
  Real.arccos ((a.x * b.x + a.y * b.y + a.z * b.z) / (a.magnitude * b.magnitude))

end

/-! ## Interval enclosure of the numerical propagator

Integer interval arithmetic at a fixed scale, used to follow `update(1.0)` over
many steps. Every rounding goes outward; the square-root candidates are checked
by squaring, so no property of `sqrtIter` is relied on. -/

/-- Fixed-point scale: the integer `n` stands for the real number `n / fixScale`. -/
def fixScale : ℤ := 10 ^ 20

/-- `G * M_EARTH = 6.67430e-11 * 5.972e24`, an integer. -/
def GM_INT : ℤ := 398589196000000

/-- Newton iteration for an integer square root, from a start value above the root. -/
def sqrtIter : ℕ → ℕ → ℕ → ℕ
  | 0, _, g => g
  | fuel + 1, n, g =>
    let g' := (g + n / g) / 2
    if g' < g then sqrtIter fuel n g' else g

/-- A candidate for the integer square root of `n` (checked where it is used). -/
def sqrtFloor (n : ℕ) : ℕ := sqrtIter 60 n (10 ^ 27)

/-- An interval enclosure of the planar state `(x, y, vx, vy)`, in units of `1 / fixScale`. -/
structure Box where
  xl : ℤ
  xu : ℤ
  yl : ℤ
  yu : ℤ
  vxl : ℤ
  vxu : ℤ
  vyl : ℤ
  vyu : ℤ
  deriving DecidableEq

/-- A lower bound of `v * v` for `l ≤ v ≤ u`. -/
def sqLo (l u : ℤ) : ℤ := if 0 ≤ l then l * l else if u ≤ 0 then u * u else 0

/-- An upper bound of `v * v` for `l ≤ v ≤ u`. -/
def sqHi (l u : ℤ) : ℤ := max (l * l) (u * u)

/-- A lower bound of `v * a` for `l ≤ v` and `0 ≤ al ≤ a ≤ au`. -/
def mulLo (l al au : ℤ) : ℤ := if 0 ≤ l then l * al else l * au

/-- An upper bound of `v * a` for `v ≤ u` and `0 ≤ al ≤ a ≤ au`. -/
def mulHi (u al au : ℤ) : ℤ := if 0 ≤ u then u * au else u * al

namespace Box

/-- A lower bound of `x*x + y*y` over the box (scale `fixScale^2`). -/
def sumSqLo (b : Box) : ℤ := sqLo b.xl b.xu + sqLo b.yl b.yu

/-- An upper bound of `x*x + y*y` over the box (scale `fixScale^2`). -/
def sumSqHi (b : Box) : ℤ := sqHi b.xl b.xu + sqHi b.yl b.yu

/-- The candidate lower bound of the radius `r`. -/
def rLo (b : Box) : ℤ := sqrtFloor b.sumSqLo.toNat

/-- The candidate upper bound of the radius `r`. -/
def rHi (b : Box) : ℤ := sqrtFloor b.sumSqHi.toNat + 1

/-- A lower bound of `accelMagnitude = G*M_EARTH / (r*r*r)`, rounded down. -/
def aLo (b : Box) : ℤ := GM_INT * fixScale ^ 4 / (b.rHi * b.rHi * b.rHi)

/-- An upper bound of `accelMagnitude = G*M_EARTH / (r*r*r)`, rounded up. -/
def aHi (b : Box) : ℤ := GM_INT * fixScale ^ 4 / (b.rLo * b.rLo * b.rLo) + 1

/-- A lower bound of the new `vel.x = vel.x - pos.x * accelMagnitude`. -/
def vxLo (b : Box) : ℤ := b.vxl + (-(mulHi b.xu b.aLo b.aHi)) / fixScale

/-- An upper bound of the new `vel.x`. -/
def vxHi (b : Box) : ℤ := b.vxu + (-(mulLo b.xl b.aLo b.aHi)) / fixScale + 1

/-- A lower bound of the new `vel.y = vel.y - pos.y * accelMagnitude`. -/
def vyLo (b : Box) : ℤ := b.vyl + (-(mulHi b.yu b.aLo b.aHi)) / fixScale

/-- An upper bound of the new `vel.y`. -/
def vyHi (b : Box) : ℤ := b.vyu + (-(mulLo b.yl b.aLo b.aHi)) / fixScale + 1

/-- One interval step for `update(1.0)`: the new velocity bounds, then the new
position bounds `pos + vel`; `none` when a square-root candidate fails its check. -/
def step (b : Box) : Option Box :=
  if 0 < b.rLo ∧ b.rLo * b.rLo ≤ b.sumSqLo ∧ b.sumSqHi ≤ b.rHi * b.rHi then
    some ⟨b.xl + b.vxLo, b.xu + b.vxHi, b.yl + b.vyLo, b.yu + b.vyHi,
      b.vxLo, b.vxHi, b.vyLo, b.vyHi⟩
  else none

/-- The interval step `n` times. -/
def stepN : ℕ → Box → Option Box
  | 0, b => some b
  | n + 1, b => (b.step).bind (stepN n)

end Box

/-- Enclosures of the state along the run from `pos = (6771000, 0, 0)`,
`vel = (0, 7669.8, 0)`: `checkpoint k` encloses the state after `300 * k` calls of
`update(1.0)`, for `k = 0, ..., 18`. -/
def checkpoint : ℕ → Box
  | 0 =>
    ⟨677100000000000000000000000, 677100000000000000000000000, 0, 0,
      0, 0, 766980000000000000000000, 766980000000000000000000⟩
  | 1 =>
    ⟨638216279005944743765152395, 638216279005945058578305369, 225686537035551109616639789, 225686537035551145979303721,
      -255907335527921319213300, -255907335527919169273521, 723214579173103887750917, 723214579173104262403704⟩
  | 2 =>
    ⟨526237869992630098740783299, 526237869992631463796782248, 425521658554292246831278319, 425521658554292585136249809,
      -482688027771514169411704, -482688027771509175604412, 596551418587114634565241, 596551418587116527308726⟩
  | 3 =>
    ⟨353940902345236009830759726, 353940902345239413405882211, 576577500459759483654377981, 576577500459760865349629313,
      -654313133283102333263682, -654313133283093598254378, 401366234171685884625413, 401366234171691406672118⟩
  | 4 =>
    ⟨141039755416415598047989771, 141039755416422267875854792, 661480637389306190113393934, 661480637389310208228424190,
      -750988507778552070235110, -750988507778539002782556, 159939310274607336282195, 159939310274620122204144⟩
  | 5 =>
    ⟨-88053244716305106010397205, -88053244716293897688952582, 670426320286538734930257563, 670426320286548323635427576,
      -761473987108571023415657, -761473987108553642082066, -100052585878802853050379, -100052585878777222424086⟩
  | 6 =>
    ⟨-307025200602227971599602669, -307025200602210011029812297, 602332940205308249439379548, 602332940205329169802841391,
      -684440512999525087613383, -684440512999494908689677, -348704572782234503861519, -348704572782181480395102⟩
  | 7 =>
    ⟨-490697445868391952070750123, -490697445868360119048698369, 464990947182861837296091190, 464990947182905479332796990,
      -528679199307075648130247, -528679199307007448635966, -557351823738076136242595, -557351823737974013133503⟩
  | 8 =>
    ⟨-617942178578459390233131813, -617942178578395366987848360, 274177984860849422661080721, 274177984860933831812319134,
      -312112857773310579327529, -312112857773153381205595, -701922766632387167024309, -701922766632214928436291⟩
  | 9 =>
    ⟨-674133492604679449774777053, -674133492604544926018557972, 51837819660130640047441245, 51837819660278379179983274,
      -59714319028139662113371, -59714319027811113731172, -765763314777112219551478, -765763314776863597556643⟩
  | 10 =>
    ⟨-652839193612094131051242670, -652839193611818368704447316, -176462927841695339771655893, -176462927841460265978479592,
      199418030387192634788538, 199418030387848454858089, -741579661930191081566695, -741579661929836677582445⟩
  | 11 =>
    ⟨-556552930693508532196796456, -556552930692945856423659209, -384496662827510622408177315, -384496662827124405211866550,
      435464948870073222582994, 435464948871393958744273, -632262124543722091156091, -632262124543002463080250⟩
  | 12 =>
    ⟨-396385209246739150798284187, -396385209245628257797145025, -548402335410552620642168533, -548402335409824256161378810,
      621350529792300786045603, 621350529794698890080211, -450501361271321840067052, -450501361269623039434428⟩
  | 13 =>
    ⟨-190759049702105973828474886, -190759049700070901450606113, -649422703035413376948844039, -649422703033894700872146334,
      735848890767980964619704, 735848890771769638475906, -217264566983745122456128, -217264566979949766619984⟩
  | 14 =>
    ⟨36726673644376016359803095, 36726673647756994390525699, -676037191010172139973663291, -676037191006998872508353142,
      765976705516746898416689, 765976705521898311278170, 40663024290189605240115, 40663024297747244190409⟩
  | 15 =>
    ⟨260010632748309049146949090, 260010632753613571466735177, -625254008673104691011997839, -625254008666628776394884165,
      708416076293835760446310, 708416076302168738333574, 293765549809839202944423, 293765549825266224814873⟩
  | 16 =>
    ⟨453545019676975123852291543, 453545019686033712424483503, -502926332519917966984992132, -502926332506781907557403268,
      569834053633401574938621, 569834053651738859987501, 513152161646303045979652, 513152161676498920177241⟩
  | 17 =>
    ⟨595198619086850604148934402, 595198619104611386417929937, -323068231140517113048709455, -323068231115158625218234710,
      366089108252768913591500, 366089108295564237255261, 673809354511674261576245, 673809354563969779267002⟩
  | 18 =>
    ⟨668766026470198372138257072, 668766026507409814517407126, -106254406916318522749572901, -106254406871383162126890438,
      120428186242177249856536, 120428186333789527207269, 757404103085078771874047, 757404103163262911789060⟩
  | _ => ⟨0, 0, 0, 0, 0, 0, 0, 0⟩

/-- The state `s` lies in the box `b`: it is planar (`z = 0`, `vz = 0`) and each
of `x, y, vx, vy`, times `fixScale`, lies between the two integer bounds. -/
def Box.contains (b : Box) (s : Sattelite) : Prop :=
  ((b.xl : ℝ) ≤ s.pos.x * fixScale ∧ s.pos.x * fixScale ≤ b.xu) ∧
  ((b.yl : ℝ) ≤ s.pos.y * fixScale ∧ s.pos.y * fixScale ≤ b.yu) ∧
  ((b.vxl : ℝ) ≤ s.vel.x * fixScale ∧ s.vel.x * fixScale ≤ b.vxu) ∧
  ((b.vyl : ℝ) ≤ s.vel.y * fixScale ∧ s.vel.y * fixScale ≤ b.vyu) ∧
  s.pos.z = 0 ∧ s.vel.z = 0

/-! ## Angular momentum and runs of the numerical propagator -/

noncomputable section

/-- The cross product `a × b`. -/
def Vector3.cross (a b : Vector3) : Vector3 :=
  ⟨a.y * b.z - a.z * b.y, a.z * b.x - a.x * b.z, a.x * b.y - a.y * b.x⟩

/-- The dot product `a · b`. -/
def Vector3.dot (a b : Vector3) : ℝ := a.x * b.x + a.y * b.y + a.z * b.z

/-- The angular momentum vector `pos × vel` (per unit mass) of a `Satellite`. -/
def Satellite.angularMomentum (s : Satellite) : Vector3 := s.pos.cross s.vel

/-- The angular momentum vector `pos × vel` (per unit mass) of a `Sattelite`. -/
def Sattelite.angularMomentum (s : Sattelite) : Vector3 := s.pos.cross s.vel

/-- The state after one call of `Satellite::update` for each time step of `dts`,
in order (the loop `sat.update(dt)` of `Tracker.cpp`, 107-110). -/
def Satellite.run (s : Satellite) : List ℝ → Satellite
  | [] => s
  | dt :: dts => (s.update dt).run dts

/-- The state after one call of `Sattelite::update` for each time step of `dts`,
in order (the loop `sat.update(dt)` of `orbit_physics.cpp`, 77-79). -/
def Sattelite.run (s : Sattelite) : List ℝ → Sattelite
  | [] => s
  | dt :: dts => (s.update dt).run dts

/-- Every call of `update` along the run starts from a non-zero position. -/
def Satellite.posNonzeroAlong (s : Satellite) : List ℝ → Prop
  | [] => True
  | dt :: dts => s.pos ≠ ⟨0, 0, 0⟩ ∧ (s.update dt).posNonzeroAlong dts

end

/-! ## Theorems -/

theorem trailPush_length_le {α : Type} (N : Nat) (trail : List α) (p : α)
    (h : trail.length ≤ N) : (trailPush N trail p).length ≤ N := by
  unfold trailPush
  simp only
  split_ifs with hgt
  · simp only [List.length_tail, List.length_append, List.length_singleton]
    omega
  · simpa using hgt

theorem foldl_trailPush_eq_drop {α : Type} (N : Nat) (hN : 1 ≤ N) (ps init : List α)
    (hinit : init.length ≤ N) :
    ps.foldl (trailPush N) init = (init ++ ps).drop ((init ++ ps).length - N) := by
  induction ps generalizing init with
  | nil => simp [Nat.sub_eq_zero_of_le hinit]
  | cons p ps ih =>
    simp only [List.foldl_cons]
    rw [ih _ (trailPush_length_le N init p hinit)]
    unfold trailPush
    simp only
    split_ifs with h
    · simp only [List.length_append, List.length_singleton] at h
      have hi : init.length = N := by omega
      cases init with
      | nil => simp at hi; omega
      | cons a init =>
        simp only [List.cons_append, List.tail_cons, List.length_append, List.length_cons,
          List.length_singleton, List.length_nil] at *
        obtain ⟨k, hk⟩ : ∃ k, init.length + (ps.length + 1) + 1 - N = k + 1 :=
          ⟨ps.length, by omega⟩
        have hk2 : init.length + (0 + 1) + ps.length - N = k := by omega
        rw [hk, hk2, List.drop_succ_cons]
        simp [List.append_assoc]
    · simp [List.append_assoc]

/-- C1: for every capacity `N ≥ 1` and every sequence `ps` of `k` points appended
one at a time to an empty trail, the trail is the last `min k N` points of `ps`
in append order: its length never exceeds `N`, for `k ≤ N` it is `ps` itself,
and for `k > N` it holds exactly `N` points with `p_{k-N}` at the front. -/
theorem trailAfter_is_last_N {α : Type} (N : Nat) (hN : 1 ≤ N) (ps : List α) :
    trailAfter N ps = ps.drop (ps.length - N) ∧
    (trailAfter N ps).length ≤ N ∧
    (ps.length ≤ N → trailAfter N ps = ps) ∧
    (N < ps.length →
      (trailAfter N ps).length = N ∧ (trailAfter N ps).head? = ps[ps.length - N]?) := by
  have hmain : trailAfter N ps = ps.drop (ps.length - N) := by
    have := foldl_trailPush_eq_drop N hN ps [] (by simp)
    simpa [trailAfter] using this
  refine ⟨hmain, ?_, ?_, ?_⟩
  · rw [hmain, List.length_drop]; omega
  · intro h
    rw [hmain, Nat.sub_eq_zero_of_le h, List.drop_zero]
  · intro h
    refine ⟨by rw [hmain, List.length_drop]; omega, ?_⟩
    rw [hmain, List.head?_drop]

/-- C1 at capacity 3 with five appended points. -/
theorem trailAfter_is_last_N_witness :
    1 ≤ 3 ∧ trailAfter 3 [10, 20, 30, 40, 50] = [30, 40, 50] := by
  refine ⟨by decide, ?_⟩
  have h := (trailAfter_is_last_N 3 (by decide) [10, 20, 30, 40, 50]).1
  simpa using h

section Propagator

theorem Vector3.add_eq (a b : Vector3) : a + b = ⟨a.x + b.x, a.y + b.y, a.z + b.z⟩ := rfl

theorem Vector3.scale_eq (a : Vector3) (s : ℝ) : a * s = ⟨a.x * s, a.y * s, a.z * s⟩ := rfl

theorem Vector3.magnitude_nonneg (a : Vector3) : 0 ≤ a.magnitude := Real.sqrt_nonneg _

theorem Vector3.magnitude_sq (a : Vector3) :
    a.magnitude * a.magnitude = a.x * a.x + a.y * a.y + a.z * a.z := by
  unfold Vector3.magnitude
  exact Real.mul_self_sqrt
    (add_nonneg (add_nonneg (mul_self_nonneg _) (mul_self_nonneg _)) (mul_self_nonneg _))

theorem Vector3.magnitude_pos_of_ne (a : Vector3) (h : a ≠ ⟨0, 0, 0⟩) : 0 < a.magnitude := by
  unfold Vector3.magnitude
  apply Real.sqrt_pos.mpr
  by_contra hle
  have h0 : a.x * a.x + a.y * a.y + a.z * a.z = 0 :=
    le_antisymm (not_lt.mp hle)
      (add_nonneg (add_nonneg (mul_self_nonneg _) (mul_self_nonneg _)) (mul_self_nonneg _))
  have hx : a.x = 0 := by nlinarith [mul_self_nonneg a.x, mul_self_nonneg a.y, mul_self_nonneg a.z]
  have hy : a.y = 0 := by nlinarith [mul_self_nonneg a.x, mul_self_nonneg a.y, mul_self_nonneg a.z]
  have hz : a.z = 0 := by nlinarith [mul_self_nonneg a.x, mul_self_nonneg a.y, mul_self_nonneg a.z]
  apply h
  cases a
  simp_all

/-- C5: for every state with `r = |pos| > 0` and every `dt`, `Satellite::update`
gives `vel' = vel + a*dt` and `pos' = pos + vel'*dt` with
`a = pos * (-(G*M_EARTH)/r^3)`, the position step using the new velocity; the
copy in `orbit_physics.cpp` computes the same position and velocity. -/
theorem update_semi_implicit_euler (s : Satellite) (dt : ℝ) (_hr : 0 < s.pos.magnitude) :
    (s.update dt).vel = s.vel + (s.pos * (-(G * M_EARTH) / s.pos.magnitude ^ 3)) * dt ∧
    (s.update dt).pos = s.pos + (s.update dt).vel * dt ∧
    ((Sattelite.mk s.pos s.vel).update dt).vel = (s.update dt).vel ∧
    ((Sattelite.mk s.pos s.vel).update dt).pos = (s.update dt).pos := by
  refine ⟨?_, rfl, rfl, rfl⟩
  have h3 : s.pos.magnitude * s.pos.magnitude * s.pos.magnitude = s.pos.magnitude ^ 3 := by ring
  simp only [Satellite.update, h3, neg_div]

/-- C5 on the start state of `orbit_physics.cpp` with `dt = 1`. -/
theorem update_semi_implicit_euler_witness :
    0 < (Vector3.mk 6771000 0 0).magnitude ∧
    ((Satellite.mk ⟨6771000, 0, 0⟩ ⟨0, 7669.8, 0⟩).update 1).pos =
      (Vector3.mk 6771000 0 0) + ((Satellite.mk ⟨6771000, 0, 0⟩ ⟨0, 7669.8, 0⟩).update 1).vel * (1 : ℝ) := by
  have hr : 0 < (Vector3.mk 6771000 0 0).magnitude :=
    Vector3.magnitude_pos_of_ne _ (by intro h; have := congrArg Vector3.x h; norm_num at this)
  exact ⟨hr, (update_semi_implicit_euler ⟨⟨6771000, 0, 0⟩, ⟨0, 7669.8, 0⟩⟩ 1 hr).2.1⟩

end Propagator

section Visibility

theorem trackerDotProd_zenith (g : Vector3) (h : ℝ) (hm : 0 < g.magnitude) :
    trackerDotProd g (zenithPoint g h) = h * g.magnitude := by
  have hsq := g.magnitude_sq
  unfold trackerDotProd zenithPoint
  field_simp
  linear_combination (-h) * hsq

theorem trackerDotProd_nadir (g : Vector3) (h : ℝ) (hm : 0 < g.magnitude) :
    trackerDotProd g (nadirPoint g h) = -(h * g.magnitude) := by
  have hsq := g.magnitude_sq
  unfold trackerDotProd nadirPoint
  field_simp
  linear_combination h * hsq

theorem sat3dDot_zenith (g : Vector3) (h : ℝ) (hm : 0 < g.magnitude) :
    sat3dDot g (zenithPoint g h) = h := by
  have hsq := g.magnitude_sq
  have hm' : Real.sqrt (g.x * g.x + g.y * g.y + g.z * g.z) = g.magnitude := rfl
  unfold sat3dDot zenithPoint
  simp only [hm']
  field_simp
  linear_combination (-h) * hsq

theorem sat3dDot_nadir (g : Vector3) (h : ℝ) (hm : 0 < g.magnitude) :
    sat3dDot g (nadirPoint g h) = -h := by
  have hsq := g.magnitude_sq
  have hm' : Real.sqrt (g.x * g.x + g.y * g.y + g.z * g.z) = g.magnitude := rfl
  unfold sat3dDot nadirPoint
  simp only [hm']
  field_simp
  linear_combination h * hsq

/-- C6: for every non-zero ground position `g` and every `h > 0`, the body at
`g + h*(g/|g|)` is visible and the body at `g - h*(g/|g|)` is not, both by the
test `dot(g, body - g) > 0` of `Tracker.cpp` and by the normalised test of
`main_3d_sat.cpp`. -/
theorem visible_at_zenith_hidden_at_nadir (g : Vector3) (h : ℝ)
    (hg : g ≠ ⟨0, 0, 0⟩) (hh : 0 < h) :
    trackerVisible g (zenithPoint g h) ∧ ¬ trackerVisible g (nadirPoint g h) ∧
    sat3dVisible g (zenithPoint g h) ∧ ¬ sat3dVisible g (nadirPoint g h) := by
  have hm := g.magnitude_pos_of_ne hg
  unfold trackerVisible sat3dVisible
  rw [trackerDotProd_zenith g h hm, trackerDotProd_nadir g h hm, sat3dDot_zenith g h hm,
    sat3dDot_nadir g h hm]
  have hpos : 0 < h * g.magnitude := mul_pos hh hm
  refine ⟨hpos, by linarith, hh, by linarith⟩

/-- C6 for a station on the x axis at the Earth's radius and a body 400 km up. -/
theorem visible_at_zenith_hidden_at_nadir_witness :
    trackerVisible ⟨6371000, 0, 0⟩ (zenithPoint ⟨6371000, 0, 0⟩ 400000) ∧
    ¬ sat3dVisible ⟨6371000, 0, 0⟩ (nadirPoint ⟨6371000, 0, 0⟩ 400000) := by
  have h := visible_at_zenith_hidden_at_nadir ⟨6371000, 0, 0⟩ 400000
    (by intro h; have := congrArg Vector3.x h; norm_num at this) (by norm_num)
  exact ⟨h.1, h.2.2.2⟩

end Visibility

section Normalisation

open Real

theorem whileBelow_spec (n : ℕ) : ∀ lon : ℝ, -π ≤ lon + n * (2 * π) →
    ∃ k : ℕ, k ≤ n ∧ (∀ fuel, k < fuel → whileBelow fuel lon = some (lon + k * (2 * π))) ∧
      -π ≤ lon + k * (2 * π) ∧ (0 < k → lon + k * (2 * π) < π) := by
  induction n with
  | zero =>
    intro lon h
    refine ⟨0, le_refl _, ?_, by simpa using h, by intro h0; omega⟩
    intro fuel hf
    obtain ⟨f, rfl⟩ : ∃ f, fuel = f + 1 := ⟨fuel - 1, by omega⟩
    have hnot : ¬ lon < -π := by simpa using h
    simp [whileBelow, hnot]
  | succ n ih =>
    intro lon h
    by_cases hlt : lon < -π
    · have h' : -π ≤ (lon + 2 * π) + n * (2 * π) := by
        have : lon + (↑(n + 1) : ℝ) * (2 * π) = (lon + 2 * π) + n * (2 * π) := by
          push_cast; ring
        rw [← this]; exact h
      obtain ⟨k, hk, hrun, hlo, hhi⟩ := ih (lon + 2 * π) h'
      have hval : lon + 2 * π + (k : ℝ) * (2 * π) = lon + ((k + 1 : ℕ) : ℝ) * (2 * π) := by
        push_cast; ring
      refine ⟨k + 1, by omega, ?_, by rw [← hval]; exact hlo, ?_⟩
      · intro fuel hf
        obtain ⟨f, rfl⟩ : ∃ f, fuel = f + 1 := ⟨fuel - 1, by omega⟩
        rw [whileBelow, if_pos hlt, hrun f (by omega), hval]
      · intro _
        rw [← hval]
        rcases Nat.eq_zero_or_pos k with hk0 | hkpos
        · subst hk0
          simp only [Nat.cast_zero, zero_mul, add_zero]
          linarith [Real.pi_pos]
        · exact hhi hkpos
    · refine ⟨0, by omega, ?_, by simpa using not_lt.mp hlt, by intro h0; omega⟩
      intro fuel hf
      obtain ⟨f, rfl⟩ : ∃ f, fuel = f + 1 := ⟨fuel - 1, by omega⟩
      simp [whileBelow, hlt]

theorem whileAbove_spec (n : ℕ) : ∀ lon : ℝ, lon - n * (2 * π) ≤ π →
    ∃ k : ℕ, k ≤ n ∧ (∀ fuel, k < fuel → whileAbove fuel lon = some (lon - k * (2 * π))) ∧
      lon - k * (2 * π) ≤ π ∧ (0 < k → -π < lon - k * (2 * π)) := by
  induction n with
  | zero =>
    intro lon h
    refine ⟨0, le_refl _, ?_, by simpa using h, by intro h0; omega⟩
    intro fuel hf
    obtain ⟨f, rfl⟩ : ∃ f, fuel = f + 1 := ⟨fuel - 1, by omega⟩
    have hnot : ¬ lon > π := by simpa using h
    simp [whileAbove, hnot]
  | succ n ih =>
    intro lon h
    by_cases hgt : lon > π
    · have h' : (lon - 2 * π) - n * (2 * π) ≤ π := by
        have : lon - (↑(n + 1) : ℝ) * (2 * π) = (lon - 2 * π) - n * (2 * π) := by
          push_cast; ring
        rw [← this]; exact h
      obtain ⟨k, hk, hrun, hhi, hlo⟩ := ih (lon - 2 * π) h'
      have hval : lon - 2 * π - (k : ℝ) * (2 * π) = lon - ((k + 1 : ℕ) : ℝ) * (2 * π) := by
        push_cast; ring
      refine ⟨k + 1, by omega, ?_, by rw [← hval]; exact hhi, ?_⟩
      · intro fuel hf
        obtain ⟨f, rfl⟩ : ∃ f, fuel = f + 1 := ⟨fuel - 1, by omega⟩
        rw [whileAbove, if_pos hgt, hrun f (by omega), hval]
      · intro _
        rw [← hval]
        rcases Nat.eq_zero_or_pos k with hk0 | hkpos
        · subst hk0
          simp only [Nat.cast_zero, zero_mul, sub_zero]
          linarith [Real.pi_pos]
        · exact hlo hkpos
    · refine ⟨0, by omega, ?_, by simpa using not_lt.mp hgt, by intro h0; omega⟩
      intro fuel hf
      obtain ⟨f, rfl⟩ : ∃ f, fuel = f + 1 := ⟨fuel - 1, by omega⟩
      simp [whileAbove, hgt]

/-- The two loops end for every start value, in `[-π, π]`, a whole number of
turns away from the start. -/
theorem normalizeLon_spec (lon0 : ℝ) :
    ∃ (fuel : ℕ) (r : ℝ), (∀ fuel', fuel ≤ fuel' → normalizeLon fuel' lon0 = some r) ∧
      -π ≤ r ∧ r ≤ π ∧ ∃ k : ℤ, r - lon0 = k * (2 * π) := by
  have h2pi : 0 < 2 * π := by positivity
  obtain ⟨n, hn⟩ : ∃ n : ℕ, -π ≤ lon0 + n * (2 * π) := by
    refine ⟨⌈(-π - lon0) / (2 * π)⌉₊, ?_⟩
    have := Nat.le_ceil ((-π - lon0) / (2 * π))
    rw [div_le_iff₀ h2pi] at this
    linarith
  obtain ⟨k, _, hrun, hlo, hhi⟩ := whileBelow_spec n lon0 hn
  obtain ⟨m, hm⟩ : ∃ m : ℕ, (lon0 + k * (2 * π)) - m * (2 * π) ≤ π := by
    refine ⟨⌈(lon0 + k * (2 * π) - π) / (2 * π)⌉₊, ?_⟩
    have := Nat.le_ceil ((lon0 + k * (2 * π) - π) / (2 * π))
    rw [div_le_iff₀ h2pi] at this
    linarith
  obtain ⟨j, _, hrun2, hhi2, hlo2⟩ := whileAbove_spec m (lon0 + k * (2 * π)) hm
  refine ⟨max k j + 1, lon0 + k * (2 * π) - j * (2 * π), ?_, ?_, hhi2, ⟨(k : ℤ) - j, ?_⟩⟩
  · intro fuel' hf
    have hk : k < fuel' := lt_of_le_of_lt (le_max_left k j) (by omega)
    have hj : j < fuel' := lt_of_le_of_lt (le_max_right k j) (by omega)
    simp [normalizeLon, hrun fuel' hk, hrun2 fuel' hj]
  · rcases Nat.eq_zero_or_pos j with hj0 | hjpos
    · subst hj0
      simpa using hlo
    · exact le_of_lt (hlo2 hjpos)
  · push_cast; ring

/-- C10: for every real start value `lon0` the two normalisation loops
terminate (any large enough iteration budget gives the same result), the result
lies in `[-π, π]` and differs from `lon0` by an integer multiple of `2π`. -/
theorem normalizeLon_terminates_in_range (lon0 : ℝ) :
    ∃ (fuel : ℕ) (r : ℝ), (∀ fuel', fuel ≤ fuel' → normalizeLon fuel' lon0 = some r) ∧
      -π ≤ r ∧ r ≤ π ∧ ∃ k : ℤ, r - lon0 = k * (2 * π) :=
  normalizeLon_spec lon0

end Normalisation

section Failure

open Real

/-- C8 as stated fails: at the zero position (`r = 0`) the call of `update`
comes back to the caller in both copies; nothing is signalled. -/
theorem update_at_zero_position_returns :
    (Satellite.mk ⟨0, 0, 0⟩ ⟨0, 7669.8, 0⟩).updateCall 1 ≠ none ∧
    (Sattelite.mk ⟨0, 0, 0⟩ ⟨0, 7669.8, 0⟩).updateCall 1 ≠ none := by
  constructor <;> simp [Satellite.updateCall, Sattelite.updateCall]

/-- C8 amended: for every state whose position is the zero vector and every
`dt`, `update` (both copies) returns to the caller with a stored state; no
invalid-state condition is signalled. -/
theorem update_zero_position_no_signal (s : Satellite) (dt : ℝ) (_h0 : s.pos = ⟨0, 0, 0⟩) :
    (∃ s', s.updateCall dt = some s') ∧
    (∃ s', (Sattelite.mk s.pos s.vel).updateCall dt = some s') :=
  ⟨⟨_, rfl⟩, ⟨_, rfl⟩⟩

/-- C8 amended, at the zero position with `dt = 1`. -/
theorem update_zero_position_no_signal_witness :
    ∃ s', (Satellite.mk ⟨0, 0, 0⟩ ⟨0, 7669.8, 0⟩).updateCall 1 = some s' :=
  (update_zero_position_no_signal ⟨⟨0, 0, 0⟩, ⟨0, 7669.8, 0⟩⟩ 1 rfl).1

theorem one_sub_ecc_mul_cos_pos (ecc E : ℝ) (h0 : 0 ≤ ecc) (h1 : ecc < 1) :
    0 < 1 - ecc * Real.cos E := by
  have hc : Real.cos E ≤ 1 := Real.cos_le_one E
  nlinarith

/-- C9 as stated fails: with eccentricity 2 (outside `[0, 1)`), and with
`meanMotion = 0`, the call of `getSatellitePosition` comes back with a
position. -/
theorem getSatellitePosition_invalid_elements_returns :
    getSatellitePositionCall ⟨0, 0, 2, 0, 0, 1⟩ 0 ≠ none ∧
    getSatellitePositionCall ⟨0, 0, 0, 0, 0, 0⟩ 0 ≠ none := by
  constructor <;> simp [getSatellitePositionCall]

/-- C9 amended: for every element set and every `t`, `getSatellitePosition`
returns a position and signals nothing; for eccentricity in `[0, 1)` and
`meanMotion ≠ 0` every divisor met in the body (`2π`, `1 - ecc*cos E`,
`meanMotion²`) is non-zero and the arguments of `pow` and `sqrt` are positive. -/
theorem getSatellitePosition_always_returns (oe : OrbitalElements) (t : ℝ) :
    (∃ p, getSatellitePositionCall oe t = some p) ∧
    (0 ≤ oe.ecc → oe.ecc < 1 → oe.meanMotion ≠ 0 →
      2 * π ≠ 0 ∧ (∀ E : ℝ, 1 - oe.ecc * Real.cos E ≠ 0) ∧
      oe.meanMotion * oe.meanMotion ≠ 0 ∧
      0 < G * M_EARTH / (oe.meanMotion * oe.meanMotion) ∧
      0 < 1 - oe.ecc * oe.ecc) := by
  refine ⟨⟨_, rfl⟩, ?_⟩
  intro h0 h1 hn
  have hnn : 0 < oe.meanMotion * oe.meanMotion := mul_self_pos.mpr hn
  have hGM : 0 < G * M_EARTH := by unfold G M_EARTH; norm_num
  refine ⟨by positivity, ?_, ne_of_gt hnn, div_pos hGM hnn, by nlinarith⟩
  intro E
  exact ne_of_gt (one_sub_ecc_mul_cos_pos oe.ecc E h0 h1)

/-- C9 amended, on an element set with eccentricity 0.01 and mean motion 1. -/
theorem getSatellitePosition_always_returns_witness :
    (0 : ℝ) ≤ 0.01 ∧ (0.01 : ℝ) < 1 ∧ (1 : ℝ) ≠ 0 ∧
    ∀ E : ℝ, 1 - (0.01 : ℝ) * Real.cos E ≠ 0 :=
  ⟨by norm_num, by norm_num, by norm_num,
    ((getSatellitePosition_always_returns ⟨0, 0, 0.01, 0, 0, 1⟩ 0).2
      (by norm_num) (by norm_num) (by norm_num)).2.1⟩

end Failure

section Rotation

open Real

/-- The composed rotation `Rz(raan) * Rx(inclination) * Rz(argPerigee)` is the
matrix written out entry by entry. -/
theorem euler313_eq_explicit (raan inclination argPerigee P Q : ℝ) :
    euler313 raan inclination argPerigee P Q
      = euler313Explicit raan inclination argPerigee P Q := by
  simp only [euler313, euler313Explicit, rotZ, rotateX, Vector3.mk.injEq]
  refine ⟨by ring, by ring, by ring⟩

/-- The body of `getSatellitePosition` in terms of the `P` and `Q` it computes. -/
theorem getSatellitePosition_eq (oe : OrbitalElements) (t : ℝ) :
    getSatellitePosition oe t =
      ⟨planeP oe t * (Real.cos oe.raan * Real.cos oe.argPerigee
            - Real.sin oe.raan * Real.sin oe.inclination * Real.sin oe.argPerigee)
          - planeQ oe t * (Real.cos oe.raan * Real.sin oe.argPerigee
            + Real.sin oe.raan * Real.sin oe.inclination * Real.cos oe.argPerigee),
       planeP oe t * (Real.sin oe.raan * Real.cos oe.argPerigee
            + Real.cos oe.raan * Real.sin oe.inclination * Real.sin oe.argPerigee)
          - planeQ oe t * (Real.sin oe.raan * Real.sin oe.argPerigee
            - Real.cos oe.raan * Real.sin oe.inclination * Real.cos oe.argPerigee),
       planeP oe t * (Real.sin oe.inclination * Real.sin oe.argPerigee)
          + planeQ oe t * (Real.sin oe.inclination * Real.cos oe.argPerigee)⟩ :=
  rfl

theorem keplerStep_zero_zero : keplerStep 0 0 0 = 0 := by
  unfold keplerStep
  norm_num

theorem keplerSolve_zero_zero : keplerSolve 0 0 = 0 := by
  unfold keplerSolve
  rw [Function.iterate_fixed keplerStep_zero_zero]

theorem fmod_zero (y : ℝ) : fmod 0 y = 0 := by
  simp [fmod, truncToward0]

/-- C4 fails on the code: for the equatorial circular orbit with
`argPerigee = π/2` at `t = 0` the code returns the origin, while the 3-1-3
rotation of the same `(P, Q)` is the point `(0, a, 0)` at distance `a > 0`. The
code multiplies by `sin(inclination)` where the rotation has `cos(inclination)`. -/
theorem getSatellitePosition_differs_from_euler313 :
    getSatellitePosition ⟨0, 0, 0, π / 2, 0, 1⟩ 0 = ⟨0, 0, 0⟩ ∧
    euler313Explicit 0 0 (π / 2) (planeP ⟨0, 0, 0, π / 2, 0, 1⟩ 0) (planeQ ⟨0, 0, 0, π / 2, 0, 1⟩ 0)
      = ⟨0, semiMajorAxis ⟨0, 0, 0, π / 2, 0, 1⟩, 0⟩ ∧
    0 < semiMajorAxis ⟨0, 0, 0, π / 2, 0, 1⟩ := by
  have hE : eccentricAnomaly ⟨0, 0, 0, π / 2, 0, 1⟩ 0 = 0 := by
    simp [eccentricAnomaly, fmod_zero, keplerSolve_zero_zero]
  have hP : planeP ⟨0, 0, 0, π / 2, 0, 1⟩ 0 = semiMajorAxis ⟨0, 0, 0, π / 2, 0, 1⟩ := by
    simp [planeP, hE]
  have hQ : planeQ ⟨0, 0, 0, π / 2, 0, 1⟩ 0 = 0 := by
    simp [planeQ, hE]
  refine ⟨?_, ?_, ?_⟩
  · rw [getSatellitePosition_eq]
    simp [hP, hQ]
  · simp [euler313Explicit, hP, hQ]
  · unfold semiMajorAxis
    apply Real.rpow_pos_of_pos
    unfold G M_EARTH
    norm_num

end Rotation

section RoundTrip

open Real

theorem R_EARTH_pos : 0 < R_EARTH := by unfold R_EARTH; norm_num

theorem getStationPos_eq (lat lon t : ℝ) :
    getStationPos lat lon t =
      ⟨R_EARTH * Real.cos (lat * (π / 180)) * Real.cos (lon * (π / 180) + EARTH_ROTATION_SPEED * t),
       R_EARTH * Real.cos (lat * (π / 180)) * Real.sin (lon * (π / 180) + EARTH_ROTATION_SPEED * t),
       R_EARTH * Real.sin (lat * (π / 180))⟩ := by
  have h180 : (180.0 : ℝ) = 180 := by norm_num
  simp only [getStationPos, h180, Real.cos_add, Real.sin_add, Vector3.mk.injEq]
  refine ⟨by ring, by ring, trivial⟩

theorem getStationPos_magnitude (lat lon t : ℝ) :
    (getStationPos lat lon t).magnitude = R_EARTH := by
  rw [getStationPos_eq]
  unfold Vector3.magnitude
  simp only
  set φ := lat * (π / 180)
  set α := lon * (π / 180) + EARTH_ROTATION_SPEED * t
  have h : R_EARTH * Real.cos φ * Real.cos α * (R_EARTH * Real.cos φ * Real.cos α)
      + R_EARTH * Real.cos φ * Real.sin α * (R_EARTH * Real.cos φ * Real.sin α)
      + R_EARTH * Real.sin φ * (R_EARTH * Real.sin φ) = R_EARTH * R_EARTH := by
    have h1 := Real.sin_sq_add_cos_sq φ
    have h2 := Real.sin_sq_add_cos_sq α
    have e : R_EARTH * Real.cos φ * Real.cos α * (R_EARTH * Real.cos φ * Real.cos α)
        + R_EARTH * Real.cos φ * Real.sin α * (R_EARTH * Real.cos φ * Real.sin α)
        + R_EARTH * Real.sin φ * (R_EARTH * Real.sin φ)
        = R_EARTH * R_EARTH * (Real.cos φ ^ 2 * (Real.sin α ^ 2 + Real.cos α ^ 2)
            + Real.sin φ ^ 2) := by ring
    rw [e, h2, mul_one, add_comm, h1, mul_one]
  rw [h]
  exact Real.sqrt_mul_self (le_of_lt R_EARTH_pos)

theorem atan2_polar (a α : ℝ) (ha : 0 < a) :
    atan2 (a * Real.sin α) (a * Real.cos α) = toIocMod Real.two_pi_pos (-π) α := by
  unfold atan2
  rw [← Complex.arg_mul_cos_add_sin_mul_I_eq_toIocMod ha α]
  congr 1
  apply Complex.ext <;>
    simp [Complex.cos_ofReal_re, Complex.sin_ofReal_re, Complex.cos_ofReal_im,
      Complex.sin_ofReal_im]

/-- Round trip of the frame transform over the reals: for latitude in
`[-90, 90]`, longitude in `[-180, 180]` and any `t`, the ground track of
`getStationPos lat lon t` at the same `t` is computed (the loops end) and its
latitude is `lat` in radians; away from the poles its longitude is `lon` in
radians up to a whole number of turns, and exactly `lon` in radians when
`-180 < lon < 180`. At latitude `±90` the exact value `cos(π/2) = 0` puts the
point on the axis (`x = y = 0`); in `double` the factor `cos(M_PI/2)` is about
`6.1e-17`, not `0`, so that boundary is decided by rounding and is left out. -/
theorem groundTrack_getStationPos_roundtrip (lat lon t : ℝ)
    (hlat : -90 ≤ lat) (hlat' : lat ≤ 90) (_hlon : -180 ≤ lon) (_hlon' : lon ≤ 180) :
    ∃ (fuel : ℕ) (lonOut latOut : ℝ),
      (∀ fuel', fuel ≤ fuel' →
        groundTrack fuel' (getStationPos lat lon t) t = some (lonOut, latOut)) ∧
      latOut = lat * (π / 180) ∧
      (-90 < lat → lat < 90 →
        (∃ k : ℤ, lonOut = lon * (π / 180) + k * (2 * π)) ∧
        (-180 < lon → lon < 180 → lonOut = lon * (π / 180))) := by
  have hpi := Real.pi_pos
  obtain ⟨fuel, r, hrun, hlo, hhi, k, hk⟩ := normalizeLon_spec
    (atan2 (getStationPos lat lon t).y (getStationPos lat lon t).x - EARTH_ROTATION_SPEED * t)
  refine ⟨fuel, r, lat * (π / 180), ?_, rfl, ?_⟩
  · intro fuel' hf
    have hlatOut : Real.arcsin ((getStationPos lat lon t).z / (getStationPos lat lon t).magnitude)
        = lat * (π / 180) := by
      rw [getStationPos_magnitude]
      have hz : (getStationPos lat lon t).z = R_EARTH * Real.sin (lat * (π / 180)) := by
        rw [getStationPos_eq]
      rw [hz, mul_div_cancel_left₀ _ (ne_of_gt R_EARTH_pos)]
      apply Real.arcsin_sin <;> nlinarith
    simp [groundTrack, hrun fuel' hf, hlatOut]
  · intro h1 h2
    have hc : 0 < Real.cos (lat * (π / 180)) := by
      apply Real.cos_pos_of_mem_Ioo
      constructor <;> nlinarith
    have ha : 0 < R_EARTH * Real.cos (lat * (π / 180)) := mul_pos R_EARTH_pos hc
    have hat : atan2 (getStationPos lat lon t).y (getStationPos lat lon t).x
        = toIocMod Real.two_pi_pos (-π) (lon * (π / 180) + EARTH_ROTATION_SPEED * t) := by
      rw [getStationPos_eq]
      exact atan2_polar _ _ ha
    have hdiv := self_sub_toIocMod Real.two_pi_pos (-π) (lon * (π / 180) + EARTH_ROTATION_SPEED * t)
    rw [zsmul_eq_mul] at hdiv
    set z := toIocDiv Real.two_pi_pos (-π) (lon * (π / 180) + EARTH_ROTATION_SPEED * t)
    rw [hat] at hk
    have hr : r = lon * (π / 180) + ((k - z : ℤ) : ℝ) * (2 * π) := by
      push_cast
      linarith
    refine ⟨⟨k - z, hr⟩, ?_⟩
    intro h3 h4
    have hlt : ((k - z : ℤ) : ℝ) * (2 * π) < 1 * (2 * π) := by nlinarith
    have hgt : (-1 : ℝ) * (2 * π) < ((k - z : ℤ) : ℝ) * (2 * π) := by nlinarith
    have h2pi : 0 < 2 * π := by positivity
    have hlt' : ((k - z : ℤ) : ℝ) < 1 := lt_of_mul_lt_mul_right hlt (le_of_lt h2pi)
    have hgt' : (-1 : ℝ) < ((k - z : ℤ) : ℝ) := lt_of_mul_lt_mul_right hgt (le_of_lt h2pi)
    have hz0 : k - z = 0 := by
      have a1 : k - z < 1 := by exact_mod_cast hlt'
      have a2 : -1 < k - z := by exact_mod_cast hgt'
      omega
    rw [hr, hz0]
    simp

/-- The round trip for the station of `Tracker.cpp` (Agartala, 23.83 N 91.28 E)
at `t = 100`. -/
theorem groundTrack_getStationPos_roundtrip_witness :
    ∃ fuel : ℕ, ∀ fuel', fuel ≤ fuel' →
      groundTrack fuel' (getStationPos 23.83 91.28 100) 100
        = some (91.28 * (π / 180), 23.83 * (π / 180)) := by
  obtain ⟨fuel, lonOut, latOut, hrun, hlatOut, hrest⟩ :=
    groundTrack_getStationPos_roundtrip 23.83 91.28 100
      (by norm_num) (by norm_num) (by norm_num) (by norm_num)
  have hlonOut := (hrest (by norm_num) (by norm_num)).2 (by norm_num) (by norm_num)
  refine ⟨fuel, fun fuel' hf => ?_⟩
  rw [hrun fuel' hf, hlonOut, hlatOut]

end RoundTrip

section Kepler
open Real

theorem abs_sub_sin_le (x : ℝ) (hx : |x| ≤ 1) : |x - Real.sin x| ≤ |x| ^ 3 / 4 := by
  rcases lt_trichotomy x 0 with h | h | h
  · have hneg : 0 < -x := by linarith
    have h1 : -x ≤ 1 := by rw [abs_of_neg h] at hx; exact hx
    have a := Real.sin_lt hneg
    have b := Real.sin_gt_sub_cube hneg h1
    rw [Real.sin_neg] at a b
    rw [abs_of_neg h, abs_of_neg (by linarith)]
    linarith
  · subst h; simp
  · have h1 : x ≤ 1 := by rw [abs_of_pos h] at hx; exact hx
    have a := Real.sin_lt h
    have b := Real.sin_gt_sub_cube h h1
    rw [abs_of_pos h, abs_of_nonneg (by linarith)]
    linarith

theorem abs_one_sub_cos_le (x : ℝ) : |1 - Real.cos x| ≤ x ^ 2 / 2 := by
  have a := Real.one_sub_sq_div_two_le_cos (x := x)
  have b := Real.cos_le_one x
  rw [abs_of_nonneg (by linarith)]
  linarith

/-- The residual after one Newton update, in closed form. -/
theorem keplerResidual_step (ecc M E : ℝ) (hd : 1 - ecc * Real.cos E ≠ 0) :
    keplerResidual ecc M (keplerStep ecc M E) =
      ecc * (Real.cos E * (-(keplerResidual ecc M E / (1 - ecc * Real.cos E))
              - Real.sin (-(keplerResidual ecc M E / (1 - ecc * Real.cos E))))
        + Real.sin E * (1 - Real.cos (-(keplerResidual ecc M E / (1 - ecc * Real.cos E))))) := by
  set δ := -(keplerResidual ecc M E / (1 - ecc * Real.cos E)) with hδ
  have hstep : keplerStep ecc M E = E + δ := by
    rw [hδ]; unfold keplerStep keplerResidual; ring
  have hf : keplerResidual ecc M E = -(δ * (1 - ecc * Real.cos E)) := by
    rw [hδ]; field_simp
  rw [hstep]
  have hf' : E - ecc * Real.sin E - M = -(δ * (1 - ecc * Real.cos E)) := hf
  unfold keplerResidual
  rw [Real.sin_add]
  linear_combination hf'

/-- One Newton update squares the residual: quadratic convergence. -/
theorem keplerResidual_step_le (ecc M E : ℝ) (h0 : 0 ≤ ecc) (h1 : ecc ≤ 0.1)
    (hres : |keplerResidual ecc M E| ≤ 0.1) :
    |keplerResidual ecc M (keplerStep ecc M E)| ≤ (keplerResidual ecc M E) ^ 2 / 15 := by
  have hc : Real.cos E ≤ 1 := Real.cos_le_one E
  have hd : (0.9 : ℝ) ≤ 1 - ecc * Real.cos E := by nlinarith
  have hdpos : 0 < 1 - ecc * Real.cos E := by linarith
  rw [keplerResidual_step ecc M E (ne_of_gt hdpos)]
  set f := keplerResidual ecc M E with hfdef
  set δ := -(f / (1 - ecc * Real.cos E)) with hδ
  have hq : |δ| ≤ |f| * (10 / 9) := by
    rw [hδ, abs_neg, abs_div, abs_of_pos hdpos, div_le_iff₀ hdpos]
    have : 0 ≤ |f| := abs_nonneg f
    nlinarith
  have hq0 : 0 ≤ |δ| := abs_nonneg δ
  have hf0 : 0 ≤ |f| := abs_nonneg f
  have hq1 : |δ| ≤ 1 / 9 := by linarith
  have hs := abs_sub_sin_le δ (by linarith)
  have hcs := abs_one_sub_cos_le δ
  have hsq : δ ^ 2 = |δ| ^ 2 := (sq_abs δ).symm
  have hfsq : f ^ 2 = |f| ^ 2 := (sq_abs f).symm
  have hA : |Real.cos E * (δ - Real.sin δ)| ≤ |δ| ^ 3 / 4 := by
    rw [abs_mul]
    calc |Real.cos E| * |δ - Real.sin δ| ≤ 1 * |δ - Real.sin δ| :=
          mul_le_mul_of_nonneg_right (Real.abs_cos_le_one E) (abs_nonneg _)
      _ ≤ |δ| ^ 3 / 4 := by rw [one_mul]; exact hs
  have hB : |Real.sin E * (1 - Real.cos δ)| ≤ |δ| ^ 2 / 2 := by
    rw [abs_mul]
    calc |Real.sin E| * |1 - Real.cos δ| ≤ 1 * |1 - Real.cos δ| :=
          mul_le_mul_of_nonneg_right (Real.abs_sin_le_one E) (abs_nonneg _)
      _ ≤ |δ| ^ 2 / 2 := by rw [one_mul, ← hsq]; exact hcs
  have hsum : |Real.cos E * (δ - Real.sin δ) + Real.sin E * (1 - Real.cos δ)|
      ≤ |δ| ^ 2 * (19 / 36) := by
    have h3 : |δ| ^ 3 ≤ |δ| ^ 2 * (1 / 9) := by
      have : |δ| ^ 3 = |δ| ^ 2 * |δ| := by ring
      rw [this]
      exact mul_le_mul_of_nonneg_left hq1 (by positivity)
    calc |Real.cos E * (δ - Real.sin δ) + Real.sin E * (1 - Real.cos δ)|
        ≤ |Real.cos E * (δ - Real.sin δ)| + |Real.sin E * (1 - Real.cos δ)| := abs_add _ _
      _ ≤ |δ| ^ 3 / 4 + |δ| ^ 2 / 2 := add_le_add hA hB
      _ ≤ |δ| ^ 2 * (19 / 36) := by linarith
  have hδf : |δ| ^ 2 ≤ |f| ^ 2 * (100 / 81) := by
    have : |δ| ^ 2 ≤ (|f| * (10 / 9)) ^ 2 := pow_le_pow_left₀ hq0 hq 2
    calc |δ| ^ 2 ≤ (|f| * (10 / 9)) ^ 2 := this
      _ = |f| ^ 2 * (100 / 81) := by ring
  rw [abs_mul, abs_of_nonneg h0, hfsq]
  have hS0 : 0 ≤ |Real.cos E * (δ - Real.sin δ) + Real.sin E * (1 - Real.cos δ)| := abs_nonneg _
  have hf2 : 0 ≤ |f| ^ 2 := by positivity
  calc ecc * |Real.cos E * (δ - Real.sin δ) + Real.sin E * (1 - Real.cos δ)|
      ≤ 0.1 * (|δ| ^ 2 * (19 / 36)) := mul_le_mul h1 hsum hS0 (by norm_num)
    _ ≤ 0.1 * (|f| ^ 2 * (100 / 81) * (19 / 36)) := by
        have := mul_le_mul_of_nonneg_right hδf (show (0 : ℝ) ≤ 19 / 36 by norm_num)
        linarith
    _ ≤ |f| ^ 2 / 15 := by nlinarith

theorem keplerResidual_seed (ecc M : ℝ) (h0 : 0 ≤ ecc) (h1 : ecc ≤ 0.1) :
    |keplerResidual ecc M M| ≤ 0.1 := by
  have hs := Real.abs_sin_le_one M
  have : keplerResidual ecc M M = -(ecc * Real.sin M) := by unfold keplerResidual; ring
  rw [this, abs_neg, abs_mul, abs_of_nonneg h0]
  calc ecc * |Real.sin M| ≤ 0.1 * 1 := mul_le_mul h1 hs (abs_nonneg _) (by norm_num)
    _ = 0.1 := by norm_num

/-- A residual of size at most `b ≤ 0.1` is at most `b^2/15` after one update. -/
theorem keplerResidual_step_le_of_le (ecc M E b : ℝ) (h0 : 0 ≤ ecc) (h1 : ecc ≤ 0.1)
    (hb : b ≤ 0.1) (hres : |keplerResidual ecc M E| ≤ b) :
    |keplerResidual ecc M (keplerStep ecc M E)| ≤ b ^ 2 / 15 := by
  have h := keplerResidual_step_le ecc M E h0 h1 (le_trans hres hb)
  have hsq : keplerResidual ecc M E ^ 2 ≤ b ^ 2 := by
    rw [← sq_abs (keplerResidual ecc M E)]
    exact pow_le_pow_left₀ (abs_nonneg _) hres 2
  linarith

/-- C3: for `0 ≤ e ≤ 0.1` and every mean anomaly `M`, the eccentric anomaly `E`
after exactly 5 Newton-Raphson updates seeded at `E = M` satisfies
`|E - e*sin E - M| < 1e-6`. -/
theorem keplerSolve_residual_lt (ecc M : ℝ) (h0 : 0 ≤ ecc) (h1 : ecc ≤ 0.1) :
    |keplerSolve ecc M - ecc * Real.sin (keplerSolve ecc M) - M| < 1e-6 := by
  have r0 := keplerResidual_seed ecc M h0 h1
  have r1 := keplerResidual_step_le_of_le ecc M _ _ h0 h1 (by norm_num) r0
  have r2 := keplerResidual_step_le_of_le ecc M _ _ h0 h1 (by norm_num) r1
  have r3 := keplerResidual_step_le_of_le ecc M _ _ h0 h1 (by norm_num) r2
  have r4 := keplerResidual_step_le_of_le ecc M _ _ h0 h1 (by norm_num) r3
  have r5 := keplerResidual_step_le_of_le ecc M _ _ h0 h1 (by norm_num) r4
  have hE : keplerSolve ecc M
      = keplerStep ecc M (keplerStep ecc M (keplerStep ecc M (keplerStep ecc M
          (keplerStep ecc M M)))) := by
    simp [keplerSolve, Function.iterate_succ]
  rw [hE]
  refine lt_of_le_of_lt r5 ?_
  norm_num

/-- C3 at the eccentricity of the GPS entry of `main_3d_sat.cpp` (0.01), `M = 1`. -/
theorem keplerSolve_residual_lt_witness :
    (0 : ℝ) ≤ 0.01 ∧ (0.01 : ℝ) ≤ 0.1 ∧
    |keplerSolve 0.01 1 - 0.01 * Real.sin (keplerSolve 0.01 1) - 1| < 1e-6 :=
  ⟨by norm_num, by norm_num, keplerSolve_residual_lt 0.01 1 (by norm_num) (by norm_num)⟩

end Kepler

section Interval

theorem fixScale_cast : ((fixScale : ℤ) : ℝ) = 10 ^ 20 := by unfold fixScale; norm_num

theorem fixScale_pos : (0 : ℝ) < ((fixScale : ℤ) : ℝ) := by rw [fixScale_cast]; positivity

theorem fixScale_int_pos : (0 : ℤ) < fixScale := by unfold fixScale; positivity

theorem G_mul_M_EARTH : G * M_EARTH = ((GM_INT : ℤ) : ℝ) := by
  unfold G M_EARTH GM_INT
  norm_num

theorem sqLo_le (l u : ℤ) (X : ℝ) (hl : (l : ℝ) ≤ X) (hu : X ≤ (u : ℝ)) :
    ((sqLo l u : ℤ) : ℝ) ≤ X * X := by
  unfold sqLo
  split_ifs with h1 h2
  · have h1' : (0 : ℝ) ≤ (l : ℝ) := by exact_mod_cast h1
    push_cast
    exact mul_self_le_mul_self h1' hl
  · have h2' : ((u : ℤ) : ℝ) ≤ 0 := by exact_mod_cast h2
    push_cast
    nlinarith
  · simpa using mul_self_nonneg X

theorem le_sqHi (l u : ℤ) (X : ℝ) (hl : (l : ℝ) ≤ X) (hu : X ≤ (u : ℝ)) :
    X * X ≤ ((sqHi l u : ℤ) : ℝ) := by
  unfold sqHi
  push_cast
  rcases le_total 0 X with h | h
  · exact le_trans (mul_self_le_mul_self h hu) (le_max_right _ _)
  · refine le_trans ?_ (le_max_left _ _)
    nlinarith

theorem mulLo_le (l al au : ℤ) (X A : ℝ) (hl : (l : ℝ) ≤ X) (hal0 : (0 : ℝ) ≤ al)
    (hal : (al : ℝ) ≤ A) (hau : A ≤ (au : ℝ)) :
    ((mulLo l al au : ℤ) : ℝ) ≤ X * A := by
  unfold mulLo
  split_ifs with h
  · have h' : (0 : ℝ) ≤ (l : ℝ) := by exact_mod_cast h
    push_cast
    exact mul_le_mul hl hal hal0 (le_trans h' hl)
  · have h' : ((l : ℤ) : ℝ) < 0 := by exact_mod_cast (not_le.mp h)
    push_cast
    rcases le_total 0 X with hX | hX
    · have : 0 ≤ X * A := mul_nonneg hX (le_trans hal0 hal)
      have : (l : ℝ) * au ≤ 0 :=
        mul_nonpos_of_nonpos_of_nonneg (le_of_lt h') (le_trans hal0 (le_trans hal hau))
      linarith
    · have h1 : (l : ℝ) * au ≤ X * au :=
        mul_le_mul_of_nonneg_right hl (le_trans hal0 (le_trans hal hau))
      have h2 : X * au ≤ X * A := mul_le_mul_of_nonpos_left hau hX
      linarith

theorem le_mulHi (u al au : ℤ) (X A : ℝ) (hu : X ≤ (u : ℝ)) (hal0 : (0 : ℝ) ≤ al)
    (hal : (al : ℝ) ≤ A) (hau : A ≤ (au : ℝ)) :
    X * A ≤ ((mulHi u al au : ℤ) : ℝ) := by
  unfold mulHi
  split_ifs with h
  · have h' : (0 : ℝ) ≤ (u : ℝ) := by exact_mod_cast h
    push_cast
    rcases le_total 0 X with hX | hX
    · exact mul_le_mul hu hau (le_trans hal0 hal) h'
    · have : X * A ≤ 0 := mul_nonpos_of_nonpos_of_nonneg hX (le_trans hal0 hal)
      have : 0 ≤ (u : ℝ) * au := mul_nonneg h' (le_trans hal0 (le_trans hal hau))
      linarith
  · have h' : ((u : ℤ) : ℝ) < 0 := by exact_mod_cast (not_le.mp h)
    push_cast
    have hX : X ≤ 0 := le_trans hu (le_of_lt h')
    have h1 : X * A ≤ X * al := mul_le_mul_of_nonpos_left hal hX
    have h2 : X * al ≤ (u : ℝ) * al := mul_le_mul_of_nonneg_right hu hal0
    linarith

theorem ediv_fixScale_le (a : ℤ) : (((a / fixScale : ℤ)) : ℝ) * fixScale ≤ (a : ℝ) := by
  have h := Int.ediv_mul_le a (ne_of_gt fixScale_int_pos)
  exact_mod_cast h

theorem lt_ediv_fixScale_add_one (a : ℤ) : (a : ℝ) < (((a / fixScale + 1 : ℤ)) : ℝ) * fixScale := by
  have h := Int.lt_ediv_add_one_mul_self a fixScale_int_pos
  exact_mod_cast h

theorem Sattelite.update_one (s : Sattelite) :
    s.update 1.0 =
      ⟨⟨s.pos.x + (s.vel.x - s.pos.x * (G * M_EARTH / (s.pos.magnitude * s.pos.magnitude * s.pos.magnitude))),
        s.pos.y + (s.vel.y - s.pos.y * (G * M_EARTH / (s.pos.magnitude * s.pos.magnitude * s.pos.magnitude))),
        s.pos.z + (s.vel.z - s.pos.z * (G * M_EARTH / (s.pos.magnitude * s.pos.magnitude * s.pos.magnitude)))⟩,
       ⟨s.vel.x - s.pos.x * (G * M_EARTH / (s.pos.magnitude * s.pos.magnitude * s.pos.magnitude)),
        s.vel.y - s.pos.y * (G * M_EARTH / (s.pos.magnitude * s.pos.magnitude * s.pos.magnitude)),
        s.vel.z - s.pos.z * (G * M_EARTH / (s.pos.magnitude * s.pos.magnitude * s.pos.magnitude))⟩⟩ := by
  have h1 : (1.0 : ℝ) = 1 := by norm_num
  simp only [Sattelite.update, Vector3.add_eq, Vector3.scale_eq, h1, mul_one, mul_neg,
    ← sub_eq_add_neg]

theorem Box.r_bounds (b : Box) (s : Sattelite) (hb : b.contains s)
    (h0 : 0 < b.rLo) (hlo : b.rLo * b.rLo ≤ b.sumSqLo) (hhi : b.sumSqHi ≤ b.rHi * b.rHi) :
    (b.rLo : ℝ) ≤ s.pos.magnitude * fixScale ∧ s.pos.magnitude * fixScale ≤ b.rHi := by
  obtain ⟨⟨hx1, hx2⟩, ⟨hy1, hy2⟩, -, -, hz, -⟩ := hb
  have hS := fixScale_pos
  have hR0 : 0 ≤ s.pos.magnitude * fixScale := mul_nonneg s.pos.magnitude_nonneg (le_of_lt hS)
  have hRR : s.pos.magnitude * fixScale * (s.pos.magnitude * fixScale)
      = s.pos.x * fixScale * (s.pos.x * fixScale) + s.pos.y * fixScale * (s.pos.y * fixScale) := by
    have := s.pos.magnitude_sq
    rw [hz] at this
    linear_combination ((fixScale : ℝ) * fixScale) * this
  have hsl : ((b.sumSqLo : ℤ) : ℝ) ≤ s.pos.magnitude * fixScale * (s.pos.magnitude * fixScale) := by
    rw [hRR]
    unfold Box.sumSqLo
    push_cast
    exact add_le_add (sqLo_le _ _ _ hx1 hx2) (sqLo_le _ _ _ hy1 hy2)
  have hsu : s.pos.magnitude * fixScale * (s.pos.magnitude * fixScale) ≤ ((b.sumSqHi : ℤ) : ℝ) := by
    rw [hRR]
    unfold Box.sumSqHi
    push_cast
    exact add_le_add (le_sqHi _ _ _ hx1 hx2) (le_sqHi _ _ _ hy1 hy2)
  have hlo' : (b.rLo : ℝ) * b.rLo ≤ ((b.sumSqLo : ℤ) : ℝ) := by exact_mod_cast hlo
  have hhi' : ((b.sumSqHi : ℤ) : ℝ) ≤ (b.rHi : ℝ) * b.rHi := by exact_mod_cast hhi
  have h0' : (0 : ℝ) ≤ (b.rLo : ℝ) := by exact_mod_cast le_of_lt h0
  have hrHi0 : (0 : ℤ) ≤ b.rHi := by
    unfold Box.rHi
    exact add_nonneg (Nat.cast_nonneg _) zero_le_one
  have hrHi0' : (0 : ℝ) ≤ (b.rHi : ℝ) := by exact_mod_cast hrHi0
  exact ⟨(mul_self_le_mul_self_iff h0' hR0).mpr (le_trans hlo' hsl),
    (mul_self_le_mul_self_iff hR0 hrHi0').mpr (le_trans hsu hhi')⟩

theorem cube_le_cube {a b : ℝ} (ha : 0 ≤ a) (hab : a ≤ b) : a * a * a ≤ b * b * b := by
  have hb : 0 ≤ b := le_trans ha hab
  exact mul_le_mul (mul_le_mul hab hab ha hb) hab ha (mul_nonneg hb hb)

theorem accel_bounds (rl ru : ℤ) (R W : ℝ) (hrl0 : 0 < rl) (hrl : (rl : ℝ) ≤ R)
    (hru : R ≤ (ru : ℝ)) (hW : W * (R * R * R) = ((GM_INT : ℤ) : ℝ) * ((fixScale : ℤ) : ℝ) ^ 4) :
    (0 : ℝ) ≤ ((GM_INT * fixScale ^ 4 / (ru * ru * ru) : ℤ) : ℝ) ∧
    ((GM_INT * fixScale ^ 4 / (ru * ru * ru) : ℤ) : ℝ) ≤ W ∧
    W ≤ ((GM_INT * fixScale ^ 4 / (rl * rl * rl) + 1 : ℤ) : ℝ) := by
  have hrl0' : (0 : ℝ) < (rl : ℝ) := by exact_mod_cast hrl0
  have hR : 0 < R := lt_of_lt_of_le hrl0' hrl
  have hru0' : (0 : ℝ) < (ru : ℝ) := lt_of_lt_of_le hR hru
  have hru0 : 0 < ru := by exact_mod_cast hru0'
  have hN : (0 : ℤ) ≤ GM_INT * fixScale ^ 4 := by unfold GM_INT fixScale; positivity
  have hru3 : 0 < ru * ru * ru := by positivity
  have hrl3 : 0 < rl * rl * rl := by positivity
  have hR3 : 0 < R * R * R := by positivity
  have hq0 : 0 ≤ GM_INT * fixScale ^ 4 / (ru * ru * ru) := Int.ediv_nonneg hN (le_of_lt hru3)
  have hp0 : 0 ≤ GM_INT * fixScale ^ 4 / (rl * rl * rl) := Int.ediv_nonneg hN (le_of_lt hrl3)
  have hq : GM_INT * fixScale ^ 4 / (ru * ru * ru) * (ru * ru * ru) ≤ GM_INT * fixScale ^ 4 :=
    Int.ediv_mul_le _ (ne_of_gt hru3)
  have hp : GM_INT * fixScale ^ 4 < (GM_INT * fixScale ^ 4 / (rl * rl * rl) + 1) * (rl * rl * rl) :=
    Int.lt_ediv_add_one_mul_self _ hrl3
  have hq' : ((GM_INT * fixScale ^ 4 / (ru * ru * ru) : ℤ) : ℝ) * ((ru : ℝ) * ru * ru)
      ≤ ((GM_INT : ℤ) : ℝ) * ((fixScale : ℤ) : ℝ) ^ 4 := by exact_mod_cast hq
  have hp' : ((GM_INT : ℤ) : ℝ) * ((fixScale : ℤ) : ℝ) ^ 4
      < ((GM_INT * fixScale ^ 4 / (rl * rl * rl) + 1 : ℤ) : ℝ) * ((rl : ℝ) * rl * rl) := by
    exact_mod_cast hp
  have hq0' : (0 : ℝ) ≤ ((GM_INT * fixScale ^ 4 / (ru * ru * ru) : ℤ) : ℝ) := by exact_mod_cast hq0
  have hp1 : (0 : ℝ) ≤ ((GM_INT * fixScale ^ 4 / (rl * rl * rl) + 1 : ℤ) : ℝ) := by
    have : (0 : ℤ) ≤ GM_INT * fixScale ^ 4 / (rl * rl * rl) + 1 := by omega
    exact_mod_cast this
  have c1 : R * R * R ≤ (ru : ℝ) * ru * ru := cube_le_cube (le_of_lt hR) hru
  have c2 : (rl : ℝ) * rl * rl ≤ R * R * R := cube_le_cube (le_of_lt hrl0') hrl
  refine ⟨hq0', ?_, ?_⟩
  · by_contra hcon
    have hlt : W < ((GM_INT * fixScale ^ 4 / (ru * ru * ru) : ℤ) : ℝ) := not_le.mp hcon
    have h1 : W * (R * R * R) < ((GM_INT * fixScale ^ 4 / (ru * ru * ru) : ℤ) : ℝ) * (R * R * R) :=
      mul_lt_mul_of_pos_right hlt hR3
    have h2 : ((GM_INT * fixScale ^ 4 / (ru * ru * ru) : ℤ) : ℝ) * (R * R * R)
        ≤ ((GM_INT * fixScale ^ 4 / (ru * ru * ru) : ℤ) : ℝ) * ((ru : ℝ) * ru * ru) :=
      mul_le_mul_of_nonneg_left c1 hq0'
    linarith
  · by_contra hcon
    have hlt : ((GM_INT * fixScale ^ 4 / (rl * rl * rl) + 1 : ℤ) : ℝ) < W := not_le.mp hcon
    have h1 : ((GM_INT * fixScale ^ 4 / (rl * rl * rl) + 1 : ℤ) : ℝ) * (R * R * R) < W * (R * R * R) :=
      mul_lt_mul_of_pos_right hlt hR3
    have h2 : ((GM_INT * fixScale ^ 4 / (rl * rl * rl) + 1 : ℤ) : ℝ) * ((rl : ℝ) * rl * rl)
        ≤ ((GM_INT * fixScale ^ 4 / (rl * rl * rl) + 1 : ℤ) : ℝ) * (R * R * R) :=
      mul_le_mul_of_nonneg_left c2 hp1
    linarith

theorem vel_lo (vl u al au : ℤ) (V X W : ℝ) (hv : (vl : ℝ) ≤ V)
    (hmul : X * W ≤ ((mulHi u al au : ℤ) : ℝ)) :
    ((vl + (-(mulHi u al au)) / fixScale : ℤ) : ℝ) ≤ V - X * W / fixScale := by
  have hS := fixScale_pos
  have h := ediv_fixScale_le (-(mulHi u al au))
  have h2 : (((-(mulHi u al au)) / fixScale : ℤ) : ℝ) ≤ -(X * W) / fixScale := by
    rw [le_div_iff₀ hS]
    push_cast at h ⊢
    linarith
  push_cast at h2 ⊢
  have : -(X * W) / (fixScale : ℝ) = -(X * W / fixScale) := neg_div _ _
  linarith

theorem vel_hi (vu l al au : ℤ) (V X W : ℝ) (hv : V ≤ (vu : ℝ))
    (hmul : ((mulLo l al au : ℤ) : ℝ) ≤ X * W) :
    V - X * W / fixScale ≤ ((vu + (-(mulLo l al au)) / fixScale + 1 : ℤ) : ℝ) := by
  have hS := fixScale_pos
  have h := lt_ediv_fixScale_add_one (-(mulLo l al au))
  have h2 : -(X * W) / fixScale ≤ (((-(mulLo l al au)) / fixScale + 1 : ℤ) : ℝ) := by
    rw [div_le_iff₀ hS]
    push_cast at h ⊢
    linarith
  push_cast at h2 ⊢
  have : -(X * W) / (fixScale : ℝ) = -(X * W / fixScale) := neg_div _ _
  linarith

/-- One interval step encloses one call of `update(1.0)`. -/
theorem Box.step_sound (b b' : Box) (s : Sattelite) (hb : b.contains s)
    (hstep : b.step = some b') : b'.contains (s.update 1.0) := by
  unfold Box.step at hstep
  split_ifs at hstep with hchk
  obtain ⟨h0, hlo, hhi⟩ := hchk
  have hb' : b' = ⟨b.xl + b.vxLo, b.xu + b.vxHi, b.yl + b.vyLo, b.yu + b.vyHi,
      b.vxLo, b.vxHi, b.vyLo, b.vyHi⟩ := (Option.some.inj hstep).symm
  obtain ⟨hrl, hru⟩ := b.r_bounds s hb h0 hlo hhi
  obtain ⟨⟨hx1, hx2⟩, ⟨hy1, hy2⟩, ⟨hvx1, hvx2⟩, ⟨hvy1, hvy2⟩, hz, hvz⟩ := hb
  have hS := fixScale_pos
  have hSne : ((fixScale : ℤ) : ℝ) ≠ 0 := ne_of_gt hS
  have hrl0 : (0 : ℝ) < (b.rLo : ℝ) := by exact_mod_cast h0
  have hRpos : 0 < s.pos.magnitude * fixScale := lt_of_lt_of_le hrl0 hrl
  have hm : 0 < s.pos.magnitude := by
    by_contra hcon
    have : s.pos.magnitude * fixScale ≤ 0 :=
      mul_nonpos_of_nonpos_of_nonneg (not_lt.mp hcon) (le_of_lt hS)
    linarith
  have hmne : s.pos.magnitude ≠ 0 := ne_of_gt hm
  set A := G * M_EARTH / (s.pos.magnitude * s.pos.magnitude * s.pos.magnitude) with hA
  have hW : A * fixScale * (s.pos.magnitude * fixScale * (s.pos.magnitude * fixScale)
      * (s.pos.magnitude * fixScale)) = ((GM_INT : ℤ) : ℝ) * ((fixScale : ℤ) : ℝ) ^ 4 := by
    rw [hA, G_mul_M_EARTH]
    field_simp
    ring
  obtain ⟨hal0, hal, hau⟩ := accel_bounds b.rLo b.rHi _ _ h0 hrl hru hW
  have hxlo := vel_lo b.vxl b.xu b.aLo b.aHi _ _ _ hvx1 (le_mulHi b.xu _ _ _ _ hx2 hal0 hal hau)
  have hxhi := vel_hi b.vxu b.xl b.aLo b.aHi _ _ _ hvx2 (mulLo_le b.xl _ _ _ _ hx1 hal0 hal hau)
  have hylo := vel_lo b.vyl b.yu b.aLo b.aHi _ _ _ hvy1 (le_mulHi b.yu _ _ _ _ hy2 hal0 hal hau)
  have hyhi := vel_hi b.vyu b.yl b.aLo b.aHi _ _ _ hvy2 (mulLo_le b.yl _ _ _ _ hy1 hal0 hal hau)
  have ex : s.vel.x * fixScale - s.pos.x * fixScale * (A * fixScale) / fixScale
      = (s.vel.x - s.pos.x * A) * fixScale := by field_simp; ring
  have ey : s.vel.y * fixScale - s.pos.y * fixScale * (A * fixScale) / fixScale
      = (s.vel.y - s.pos.y * A) * fixScale := by field_simp; ring
  rw [ex] at hxlo hxhi
  rw [ey] at hylo hyhi
  have hvxLo : ((b.vxLo : ℤ) : ℝ) ≤ (s.vel.x - s.pos.x * A) * fixScale := hxlo
  have hvxHi : (s.vel.x - s.pos.x * A) * fixScale ≤ ((b.vxHi : ℤ) : ℝ) := hxhi
  have hvyLo : ((b.vyLo : ℤ) : ℝ) ≤ (s.vel.y - s.pos.y * A) * fixScale := hylo
  have hvyHi : (s.vel.y - s.pos.y * A) * fixScale ≤ ((b.vyHi : ℤ) : ℝ) := hyhi
  rw [Sattelite.update_one, hb']
  unfold Box.contains
  simp only [← hA]
  push_cast
  refine ⟨⟨?_, ?_⟩, ⟨?_, ?_⟩, ⟨hvxLo, hvxHi⟩, ⟨hvyLo, hvyHi⟩, ?_, ?_⟩
  · linarith
  · linarith
  · linarith
  · linarith
  · rw [hz, hvz]; ring
  · rw [hz, hvz]; ring

/-- The interval run encloses the run of `update(1.0)`, step for step. -/
theorem Box.stepN_sound (n : ℕ) : ∀ (b b' : Box) (s : Sattelite), b.contains s →
    Box.stepN n b = some b' → b'.contains ((fun s => s.update 1.0)^[n] s) := by
  induction n with
  | zero =>
    intro b b' s hb h
    have : b = b' := Option.some.inj h
    subst this
    simpa using hb
  | succ n ih =>
    intro b b' s hb h
    rw [Box.stepN] at h
    cases hs : b.step with
    | none => rw [hs] at h; simp at h
    | some b1 =>
      rw [hs] at h
      have h1 := Box.step_sound b b1 s hb hs
      rw [Function.iterate_succ, Function.comp_apply]
      exact ih b1 b' _ h1 h

theorem checkpoint_zero_contains : (checkpoint 0).contains (orbitAfter 0) := by
  unfold Box.contains checkpoint orbitAfter orbitStart
  simp only [Function.iterate_zero, id_eq]
  push_cast
  rw [fixScale_cast]
  norm_num

theorem Box.contains_advance (m n n' : ℕ) (b b' : Box) (hn : n' = m + n)
    (h : b.contains (orbitAfter n)) (hstep : Box.stepN m b = some b') :
    b'.contains (orbitAfter n') := by
  have h1 := Box.stepN_sound m b b' _ h hstep
  rw [hn]
  unfold orbitAfter at h1 ⊢
  rwa [Function.iterate_add_apply]

/-- The kernel runs the interval steps 1 to 300. -/
theorem checkpoint_run_0 : Box.stepN 300 (checkpoint 0) = some (checkpoint 1) := by
  decide!

/-- The kernel runs the interval steps 301 to 600. -/
theorem checkpoint_run_1 : Box.stepN 300 (checkpoint 1) = some (checkpoint 2) := by
  decide!

/-- The kernel runs the interval steps 601 to 900. -/
theorem checkpoint_run_2 : Box.stepN 300 (checkpoint 2) = some (checkpoint 3) := by
  decide!

/-- The kernel runs the interval steps 901 to 1200. -/
theorem checkpoint_run_3 : Box.stepN 300 (checkpoint 3) = some (checkpoint 4) := by
  decide!

/-- The kernel runs the interval steps 1201 to 1500. -/
theorem checkpoint_run_4 : Box.stepN 300 (checkpoint 4) = some (checkpoint 5) := by
  decide!

/-- The kernel runs the interval steps 1501 to 1800. -/
theorem checkpoint_run_5 : Box.stepN 300 (checkpoint 5) = some (checkpoint 6) := by
  decide!

/-- The kernel runs the interval steps 1801 to 2100. -/
theorem checkpoint_run_6 : Box.stepN 300 (checkpoint 6) = some (checkpoint 7) := by
  decide!

/-- The kernel runs the interval steps 2101 to 2400. -/
theorem checkpoint_run_7 : Box.stepN 300 (checkpoint 7) = some (checkpoint 8) := by
  decide!

/-- The kernel runs the interval steps 2401 to 2700. -/
theorem checkpoint_run_8 : Box.stepN 300 (checkpoint 8) = some (checkpoint 9) := by
  decide!

/-- The kernel runs the interval steps 2701 to 3000. -/
theorem checkpoint_run_9 : Box.stepN 300 (checkpoint 9) = some (checkpoint 10) := by
  decide!

/-- The kernel runs the interval steps 3001 to 3300. -/
theorem checkpoint_run_10 : Box.stepN 300 (checkpoint 10) = some (checkpoint 11) := by
  decide!

/-- The kernel runs the interval steps 3301 to 3600. -/
theorem checkpoint_run_11 : Box.stepN 300 (checkpoint 11) = some (checkpoint 12) := by
  decide!

/-- The kernel runs the interval steps 3601 to 3900. -/
theorem checkpoint_run_12 : Box.stepN 300 (checkpoint 12) = some (checkpoint 13) := by
  decide!

/-- The kernel runs the interval steps 3901 to 4200. -/
theorem checkpoint_run_13 : Box.stepN 300 (checkpoint 13) = some (checkpoint 14) := by
  decide!

/-- The kernel runs the interval steps 4201 to 4500. -/
theorem checkpoint_run_14 : Box.stepN 300 (checkpoint 14) = some (checkpoint 15) := by
  decide!

/-- The kernel runs the interval steps 4501 to 4800. -/
theorem checkpoint_run_15 : Box.stepN 300 (checkpoint 15) = some (checkpoint 16) := by
  decide!

/-- The kernel runs the interval steps 4801 to 5100. -/
theorem checkpoint_run_16 : Box.stepN 300 (checkpoint 16) = some (checkpoint 17) := by
  decide!

/-- The kernel runs the interval steps 5101 to 5400. -/
theorem checkpoint_run_17 : Box.stepN 300 (checkpoint 17) = some (checkpoint 18) := by
  decide!

theorem checkpoint_last_contains : (checkpoint 18).contains (orbitAfter 5400) := by
  have h0 := checkpoint_zero_contains
  have h1 := Box.contains_advance 300 0 300 _ _ rfl h0 checkpoint_run_0
  have h2 := Box.contains_advance 300 300 600 _ _ rfl h1 checkpoint_run_1
  have h3 := Box.contains_advance 300 600 900 _ _ rfl h2 checkpoint_run_2
  have h4 := Box.contains_advance 300 900 1200 _ _ rfl h3 checkpoint_run_3
  have h5 := Box.contains_advance 300 1200 1500 _ _ rfl h4 checkpoint_run_4
  have h6 := Box.contains_advance 300 1500 1800 _ _ rfl h5 checkpoint_run_5
  have h7 := Box.contains_advance 300 1800 2100 _ _ rfl h6 checkpoint_run_6
  have h8 := Box.contains_advance 300 2100 2400 _ _ rfl h7 checkpoint_run_7
  have h9 := Box.contains_advance 300 2400 2700 _ _ rfl h8 checkpoint_run_8
  have h10 := Box.contains_advance 300 2700 3000 _ _ rfl h9 checkpoint_run_9
  have h11 := Box.contains_advance 300 3000 3300 _ _ rfl h10 checkpoint_run_10
  have h12 := Box.contains_advance 300 3300 3600 _ _ rfl h11 checkpoint_run_11
  have h13 := Box.contains_advance 300 3600 3900 _ _ rfl h12 checkpoint_run_12
  have h14 := Box.contains_advance 300 3900 4200 _ _ rfl h13 checkpoint_run_13
  have h15 := Box.contains_advance 300 4200 4500 _ _ rfl h14 checkpoint_run_14
  have h16 := Box.contains_advance 300 4500 4800 _ _ rfl h15 checkpoint_run_15
  have h17 := Box.contains_advance 300 4800 5100 _ _ rfl h16 checkpoint_run_16
  have h18 := Box.contains_advance 300 5100 5400 _ _ rfl h17 checkpoint_run_17
  exact h18

theorem orbitAfter_5400_coords :
    (6687660 ≤ (orbitAfter 5400).pos.x ∧ (orbitAfter 5400).pos.x ≤ 6687661) ∧
    (-1062545 ≤ (orbitAfter 5400).pos.y ∧ (orbitAfter 5400).pos.y ≤ -1062544) ∧
    (orbitAfter 5400).pos.z = 0 := by
  obtain ⟨⟨hx1, hx2⟩, ⟨hy1, hy2⟩, -, -, hz, -⟩ := checkpoint_last_contains
  simp only [checkpoint, fixScale_cast] at hx1 hx2 hy1 hy2
  push_cast at hx1 hx2 hy1 hy2
  refine ⟨⟨?_, ?_⟩, ⟨?_, ?_⟩, hz⟩ <;> nlinarith

theorem radius_and_direction_of_coords (p : Vector3)
    (hx1 : 6687660 ≤ p.x) (hx2 : p.x ≤ 6687661)
    (hy1 : -1062545 ≤ p.y) (hy2 : p.y ≤ -1062544) (hz : p.z = 0) :
    |p.magnitude - 6771000| < 0.01 * 6771000 ∧
    angleBetween orbitStart.pos p < 0.03 * (2 * Real.pi) := by
  obtain ⟨x, y, z⟩ := p
  simp only at hx1 hx2 hy1 hy2 hz
  subst hz
  have hmag : (Vector3.mk x y 0).magnitude = Real.sqrt (x * x + y * y) := by
    unfold Vector3.magnitude
    simp
  have hxx1 : (6687660 : ℝ) * 6687660 ≤ x * x := mul_self_le_mul_self (by norm_num) hx1
  have hxx2 : x * x ≤ (6687661 : ℝ) * 6687661 := mul_self_le_mul_self (by linarith) hx2
  have hyy1 : (1062544 : ℝ) * 1062544 ≤ y * y := by nlinarith
  have hyy2 : y * y ≤ (1062545 : ℝ) * 1062545 := by nlinarith
  have hs0 : 0 ≤ x * x + y * y := by positivity
  have hx0 : (0 : ℝ) ≤ x := by linarith
  have hlo : (6703290 : ℝ) < Real.sqrt (x * x + y * y) := by
    rw [Real.lt_sqrt (by norm_num)]
    nlinarith
  have hhi : Real.sqrt (x * x + y * y) < (6838710 : ℝ) := by
    rw [Real.sqrt_lt' (by norm_num)]
    nlinarith
  have hmpos : 0 < Real.sqrt (x * x + y * y) := by linarith
  have hsq : Real.sqrt (x * x + y * y) * Real.sqrt (x * x + y * y) = x * x + y * y :=
    Real.mul_self_sqrt hs0
  refine ⟨?_, ?_⟩
  · rw [hmag, abs_lt]
    constructor <;> norm_num <;> linarith
  · have hm0 : orbitStart.pos.magnitude = 6771000 := by
      unfold Vector3.magnitude orbitStart
      simp only [mul_zero, add_zero]
      exact Real.sqrt_mul_self (by norm_num)
    have hq : (orbitStart.pos.x * (Vector3.mk x y 0).x + orbitStart.pos.y * (Vector3.mk x y 0).y
        + orbitStart.pos.z * (Vector3.mk x y 0).z)
        / (orbitStart.pos.magnitude * (Vector3.mk x y 0).magnitude)
        = x / Real.sqrt (x * x + y * y) := by
      rw [hm0, hmag]
      simp only [orbitStart, zero_mul, add_zero, mul_zero]
      field_simp
      ring
    unfold angleBetween
    rw [hq]
    have hpi := Real.pi_gt_d2
    have hpi2 := Real.pi_le_four
    have hcos : Real.cos (0.03 * (2 * Real.pi)) < 0.9875 := by
      have h1 : Real.cos (0.03 * (2 * Real.pi)) ≤ Real.cos 0.1884 :=
        Real.cos_le_cos_of_nonneg_of_le_pi (by norm_num) (by linarith) (by linarith)
      have h3 : |(0.1884 : ℝ)| = 0.1884 := abs_of_nonneg (by norm_num)
      have h2 := Real.cos_bound (x := 0.1884) (by rw [h3]; norm_num)
      rw [abs_le, h3] at h2
      have h4 := h2.2
      norm_num at h4
      linarith
    have hq1 : (0.9875 : ℝ) ≤ x / Real.sqrt (x * x + y * y) := by
      rw [le_div_iff₀ hmpos]
      have h5 : (0.9875 * Real.sqrt (x * x + y * y)) * (0.9875 * Real.sqrt (x * x + y * y))
          ≤ x * x := by
        have : (0.9875 * Real.sqrt (x * x + y * y)) * (0.9875 * Real.sqrt (x * x + y * y))
            = 0.9875 * 0.9875 * (x * x + y * y) := by
          linear_combination (0.9875 * 0.9875) * hsq
        rw [this]
        nlinarith
      exact (mul_self_le_mul_self_iff (by positivity) hx0).mpr h5
    have hq2 : x / Real.sqrt (x * x + y * y) ≤ 1 := by
      rw [div_le_one hmpos]
      exact (mul_self_le_mul_self_iff hx0 (le_of_lt hmpos)).mpr (by rw [hsq]; nlinarith)
    have hlt : Real.arccos (x / Real.sqrt (x * x + y * y))
        < Real.arccos (Real.cos (0.03 * (2 * Real.pi))) := by
      apply Real.strictAntiOn_arccos
      · exact ⟨Real.neg_one_le_cos _, Real.cos_le_one _⟩
      · exact ⟨by linarith, hq2⟩
      · linarith
    rw [Real.arccos_cos (by positivity) (by linarith)] at hlt
    exact hlt

/-- C7: from `pos = (6771000, 0, 0)`, `vel = (0, 7669.8, 0)`, after exactly 5400
calls of `update(1.0)` the radius `|pos|` differs from 6771000 by less than 1%,
and the angle between the final and the starting position is less than 3% of a
revolution. -/
theorem orbit_5400_radius_and_direction :
    |(orbitAfter 5400).pos.magnitude - 6771000| < 0.01 * 6771000 ∧
    angleBetween orbitStart.pos (orbitAfter 5400).pos < 0.03 * (2 * Real.pi) :=
  radius_and_direction_of_coords _ orbitAfter_5400_coords.1.1 orbitAfter_5400_coords.1.2
    orbitAfter_5400_coords.2.1.1 orbitAfter_5400_coords.2.1.2 orbitAfter_5400_coords.2.2

end Interval

section AngularMomentum

theorem Satellite.update_components (s : Satellite) (dt : ℝ) :
    s.update dt =
      ⟨⟨s.pos.x + (s.vel.x + s.pos.x * -(G * M_EARTH / (s.pos.magnitude * s.pos.magnitude * s.pos.magnitude)) * dt) * dt,
        s.pos.y + (s.vel.y + s.pos.y * -(G * M_EARTH / (s.pos.magnitude * s.pos.magnitude * s.pos.magnitude)) * dt) * dt,
        s.pos.z + (s.vel.z + s.pos.z * -(G * M_EARTH / (s.pos.magnitude * s.pos.magnitude * s.pos.magnitude)) * dt) * dt⟩,
       ⟨s.vel.x + s.pos.x * -(G * M_EARTH / (s.pos.magnitude * s.pos.magnitude * s.pos.magnitude)) * dt,
        s.vel.y + s.pos.y * -(G * M_EARTH / (s.pos.magnitude * s.pos.magnitude * s.pos.magnitude)) * dt,
        s.vel.z + s.pos.z * -(G * M_EARTH / (s.pos.magnitude * s.pos.magnitude * s.pos.magnitude)) * dt⟩⟩ :=
  rfl

theorem Sattelite.orbitPhysics_update_components (s : Sattelite) (dt : ℝ) :
    s.update dt =
      ⟨⟨s.pos.x + (s.vel.x + s.pos.x * -(G * M_EARTH / (s.pos.magnitude * s.pos.magnitude * s.pos.magnitude)) * dt) * dt,
        s.pos.y + (s.vel.y + s.pos.y * -(G * M_EARTH / (s.pos.magnitude * s.pos.magnitude * s.pos.magnitude)) * dt) * dt,
        s.pos.z + (s.vel.z + s.pos.z * -(G * M_EARTH / (s.pos.magnitude * s.pos.magnitude * s.pos.magnitude)) * dt) * dt⟩,
       ⟨s.vel.x + s.pos.x * -(G * M_EARTH / (s.pos.magnitude * s.pos.magnitude * s.pos.magnitude)) * dt,
        s.vel.y + s.pos.y * -(G * M_EARTH / (s.pos.magnitude * s.pos.magnitude * s.pos.magnitude)) * dt,
        s.vel.z + s.pos.z * -(G * M_EARTH / (s.pos.magnitude * s.pos.magnitude * s.pos.magnitude)) * dt⟩⟩ :=
  rfl

/-- One call of `update` keeps `pos × vel`: the velocity gains a multiple of
`pos`, then the position gains a multiple of the new velocity. -/
theorem Satellite.angularMomentum_update (s : Satellite) (dt : ℝ) :
    (s.update dt).angularMomentum = s.angularMomentum := by
  rw [Satellite.update_components]
  simp only [Satellite.angularMomentum, Vector3.cross, Vector3.mk.injEq]
  refine ⟨by ring, by ring, by ring⟩

theorem Sattelite.orbitPhysics_angularMomentum_update (s : Sattelite) (dt : ℝ) :
    (s.update dt).angularMomentum = s.angularMomentum := by
  rw [Sattelite.orbitPhysics_update_components]
  simp only [Sattelite.angularMomentum, Vector3.cross, Vector3.mk.injEq]
  refine ⟨by ring, by ring, by ring⟩

theorem Satellite.angularMomentum_run (dts : List ℝ) :
    ∀ s : Satellite, (s.run dts).angularMomentum = s.angularMomentum := by
  induction dts with
  | nil => intro s; rfl
  | cons dt dts ih =>
    intro s
    rw [Satellite.run, ih, Satellite.angularMomentum_update]

theorem Sattelite.orbitPhysics_angularMomentum_run (dts : List ℝ) :
    ∀ s : Sattelite, (s.run dts).angularMomentum = s.angularMomentum := by
  induction dts with
  | nil => intro s; rfl
  | cons dt dts ih =>
    intro s
    rw [Sattelite.run, ih, Sattelite.orbitPhysics_angularMomentum_update]

/-- One call of `update` keeps position and velocity in every plane through the
origin that holds both. -/
theorem Satellite.dot_update (s : Satellite) (dt : ℝ) (nv : Vector3)
    (hp : nv.dot s.pos = 0) (hv : nv.dot s.vel = 0) :
    nv.dot (s.update dt).pos = 0 ∧ nv.dot (s.update dt).vel = 0 := by
  rw [Satellite.update_components]
  simp only [Vector3.dot] at hp hv ⊢
  constructor
  · linear_combination
      (1 - G * M_EARTH / (s.pos.magnitude * s.pos.magnitude * s.pos.magnitude) * dt * dt) * hp
        + dt * hv
  · linear_combination
      (-(G * M_EARTH / (s.pos.magnitude * s.pos.magnitude * s.pos.magnitude)) * dt) * hp + hv

theorem Satellite.dot_run (dts : List ℝ) (nv : Vector3) :
    ∀ s : Satellite, nv.dot s.pos = 0 → nv.dot s.vel = 0 →
      nv.dot (s.run dts).pos = 0 ∧ nv.dot (s.run dts).vel = 0 := by
  induction dts with
  | nil => intro s hp hv; exact ⟨hp, hv⟩
  | cons dt dts ih =>
    intro s hp hv
    rw [Satellite.run]
    exact ih _ (s.dot_update dt nv hp hv).1 (s.dot_update dt nv hp hv).2

/-- The copy of `orbit_physics.cpp` runs through the same positions and velocities. -/
theorem Sattelite.run_eq (dts : List ℝ) :
    ∀ (s : Satellite), ((Sattelite.mk s.pos s.vel).run dts).pos = (s.run dts).pos ∧
      ((Sattelite.mk s.pos s.vel).run dts).vel = (s.run dts).vel := by
  induction dts with
  | nil => intro s; exact ⟨rfl, rfl⟩
  | cons dt dts ih =>
    intro s
    rw [Sattelite.run, Satellite.run]
    exact ih (s.update dt)

theorem Vector3.cross_zero_left (b : Vector3) : (Vector3.mk 0 0 0).cross b = ⟨0, 0, 0⟩ := by
  simp [Vector3.cross]

/-- A state with non-zero angular momentum never reaches the origin: every call
of `update` along any run starts from a non-zero position. -/
theorem Satellite.posNonzeroAlong_of_angularMomentum_ne (dts : List ℝ) :
    ∀ s : Satellite, s.angularMomentum ≠ ⟨0, 0, 0⟩ → s.posNonzeroAlong dts := by
  induction dts with
  | nil => intro s _; trivial
  | cons dt dts ih =>
    intro s hL
    refine ⟨?_, ih _ (by rw [Satellite.angularMomentum_update]; exact hL)⟩
    intro hpos
    apply hL
    rw [Satellite.angularMomentum, hpos, Vector3.cross_zero_left]

/-- C11: for every state with `pos ≠ 0` and every `dt`, `update` (both copies)
leaves all three components of `pos × vel` unchanged; hence over any run of
steps whose calls all start from a non-zero position the angular momentum is the
one of the start state, and a run started with position and velocity in a plane
through the origin (normal `nv`) keeps both in that plane. -/
theorem update_conserves_angular_momentum (s : Satellite) (dt : ℝ) (dts : List ℝ)
    (nv : Vector3) (_h0 : s.pos ≠ ⟨0, 0, 0⟩) :
    (s.update dt).angularMomentum = s.angularMomentum ∧
    ((Sattelite.mk s.pos s.vel).update dt).angularMomentum = s.angularMomentum ∧
    (s.posNonzeroAlong dts →
      (s.run dts).angularMomentum = s.angularMomentum ∧
      ((Sattelite.mk s.pos s.vel).run dts).angularMomentum = s.angularMomentum) ∧
    (s.posNonzeroAlong dts → nv.dot s.pos = 0 → nv.dot s.vel = 0 →
      (nv.dot (s.run dts).pos = 0 ∧ nv.dot (s.run dts).vel = 0) ∧
      (nv.dot ((Sattelite.mk s.pos s.vel).run dts).pos = 0 ∧
        nv.dot ((Sattelite.mk s.pos s.vel).run dts).vel = 0)) := by
  refine ⟨s.angularMomentum_update dt,
    Sattelite.orbitPhysics_angularMomentum_update (Sattelite.mk s.pos s.vel) dt,
    fun _ => ⟨Satellite.angularMomentum_run dts s,
      Sattelite.orbitPhysics_angularMomentum_run dts (Sattelite.mk s.pos s.vel)⟩, ?_⟩
  intro _ hp hv
  have h := Satellite.dot_run dts nv s hp hv
  have e := Sattelite.run_eq dts s
  exact ⟨h, by rw [e.1, e.2]; exact h⟩

/-- C11 on the start state of the concrete scenario: two steps of one second,
and the plane `z = 0`. -/
theorem update_conserves_angular_momentum_witness :
    (Satellite.mk ⟨6771000, 0, 0⟩ ⟨0, 7669.8, 0⟩).pos ≠ ⟨0, 0, 0⟩ ∧
    ((Satellite.mk ⟨6771000, 0, 0⟩ ⟨0, 7669.8, 0⟩).run [1, 1]).angularMomentum
      = ⟨0, 0, 6771000 * 7669.8⟩ ∧
    ((Satellite.mk ⟨6771000, 0, 0⟩ ⟨0, 7669.8, 0⟩).run [1, 1]).pos.z = 0 := by
  have hne : (Satellite.mk ⟨6771000, 0, 0⟩ ⟨0, 7669.8, 0⟩).pos ≠ ⟨0, 0, 0⟩ := by
    intro h
    have := congrArg Vector3.x h
    norm_num at this
  have hL : (Satellite.mk ⟨6771000, 0, 0⟩ ⟨0, 7669.8, 0⟩).angularMomentum
      = ⟨0, 0, 6771000 * 7669.8⟩ := by
    simp [Satellite.angularMomentum, Vector3.cross]
  have halong : (Satellite.mk ⟨6771000, 0, 0⟩ ⟨0, 7669.8, 0⟩).posNonzeroAlong [1, 1] := by
    apply Satellite.posNonzeroAlong_of_angularMomentum_ne
    rw [hL]
    intro h
    have := congrArg Vector3.z h
    norm_num at this
  have h := update_conserves_angular_momentum ⟨⟨6771000, 0, 0⟩, ⟨0, 7669.8, 0⟩⟩ 1 [1, 1]
    ⟨0, 0, 1⟩ hne
  refine ⟨hne, ?_, ?_⟩
  · rw [(h.2.2.1 halong).1, hL]
  · have hz := (h.2.2.2 halong (by simp [Vector3.dot]) (by simp [Vector3.dot])).1.1
    simpa [Vector3.dot] using hz

end AngularMomentum
section OrbitalRadius

open Real

theorem semiMajorAxis_nonneg (oe : OrbitalElements) : 0 ≤ semiMajorAxis oe := by
  unfold semiMajorAxis
  apply Real.rpow_nonneg
  have hGM : 0 ≤ G * M_EARTH := by unfold G M_EARTH; norm_num
  exact div_nonneg hGM (mul_self_nonneg _)

/-- The in-plane distance: `sqrt(P^2 + Q^2) = a * (1 - ecc * cos E)` for
eccentricity in `[0, 1)`. -/
theorem sqrt_planeP_sq_add_planeQ_sq (oe : OrbitalElements) (t : ℝ)
    (h0 : 0 ≤ oe.ecc) (h1 : oe.ecc < 1) :
    Real.sqrt (planeP oe t ^ 2 + planeQ oe t ^ 2)
      = semiMajorAxis oe * (1 - oe.ecc * Real.cos (eccentricAnomaly oe t)) := by
  have ha := semiMajorAxis_nonneg oe
  have hd := one_sub_ecc_mul_cos_pos oe.ecc (eccentricAnomaly oe t) h0 h1
  have he : 0 ≤ 1 - oe.ecc * oe.ecc := by nlinarith
  have hs : Real.sqrt (1 - oe.ecc * oe.ecc) ^ 2 = 1 - oe.ecc * oe.ecc := Real.sq_sqrt he
  have hsc := Real.sin_sq_add_cos_sq (eccentricAnomaly oe t)
  have hsq : planeP oe t ^ 2 + planeQ oe t ^ 2
      = (semiMajorAxis oe * (1 - oe.ecc * Real.cos (eccentricAnomaly oe t))) ^ 2 := by
    unfold planeP planeQ
    set E := eccentricAnomaly oe t
    set a := semiMajorAxis oe
    have e1 : (a * Real.sqrt (1 - oe.ecc * oe.ecc) * Real.sin E) ^ 2
        = a ^ 2 * (1 - oe.ecc * oe.ecc) * Real.sin E ^ 2 := by
      rw [mul_pow, mul_pow, hs]
    rw [e1]
    have e2 : Real.sin E ^ 2 = 1 - Real.cos E ^ 2 := by linarith
    rw [e2]
    ring
  rw [hsq]
  exact Real.sqrt_sq (mul_nonneg ha (le_of_lt hd))

/-- The squared distance the code returns: with `u = P*cos w - Q*sin w` and
`v = P*sin w + Q*cos w` it is `u^2 + 2*sin(i)^2*v^2`, where a rotation would
give `u^2 + v^2 = P^2 + Q^2`. -/
theorem getSatellitePosition_magnitude_sq (oe : OrbitalElements) (t : ℝ) :
    (getSatellitePosition oe t).magnitude ^ 2
      = (planeP oe t * Real.cos oe.argPerigee - planeQ oe t * Real.sin oe.argPerigee) ^ 2
        + 2 * Real.sin oe.inclination ^ 2
          * (planeP oe t * Real.sin oe.argPerigee + planeQ oe t * Real.cos oe.argPerigee) ^ 2 := by
  rw [sq, Vector3.magnitude_sq, getSatellitePosition_eq]
  simp only
  have h := Real.sin_sq_add_cos_sq oe.raan
  have hc : Real.cos oe.raan ^ 2 = 1 - Real.sin oe.raan ^ 2 := by linarith
  ring_nf
  rw [hc]
  ring

/-- C12 fails on the code: for the polar circular orbit (`inclination = π/2`)
with `argPerigee = π/2` at `t = 0` the code returns `(0, a, a)`, at distance
`sqrt 2 * a` from the origin, while `sqrt(P^2 + Q^2) = a*(1 - ecc*cos E) = a`
with `a > 0`. The code multiplies by `sin(inclination)` where the rotation has
`cos(inclination)`. -/
theorem getSatellitePosition_radius_not_preserved :
    getSatellitePosition ⟨π / 2, 0, 0, π / 2, 0, 1⟩ 0
      = ⟨0, semiMajorAxis ⟨π / 2, 0, 0, π / 2, 0, 1⟩, semiMajorAxis ⟨π / 2, 0, 0, π / 2, 0, 1⟩⟩ ∧
    (getSatellitePosition ⟨π / 2, 0, 0, π / 2, 0, 1⟩ 0).magnitude
      = Real.sqrt 2 * semiMajorAxis ⟨π / 2, 0, 0, π / 2, 0, 1⟩ ∧
    Real.sqrt (planeP ⟨π / 2, 0, 0, π / 2, 0, 1⟩ 0 ^ 2 + planeQ ⟨π / 2, 0, 0, π / 2, 0, 1⟩ 0 ^ 2)
      = semiMajorAxis ⟨π / 2, 0, 0, π / 2, 0, 1⟩ ∧
    semiMajorAxis ⟨π / 2, 0, 0, π / 2, 0, 1⟩
        * (1 - 0 * Real.cos (eccentricAnomaly ⟨π / 2, 0, 0, π / 2, 0, 1⟩ 0))
      = semiMajorAxis ⟨π / 2, 0, 0, π / 2, 0, 1⟩ ∧
    0 < semiMajorAxis ⟨π / 2, 0, 0, π / 2, 0, 1⟩ ∧
    (getSatellitePosition ⟨π / 2, 0, 0, π / 2, 0, 1⟩ 0).magnitude
      ≠ Real.sqrt (planeP ⟨π / 2, 0, 0, π / 2, 0, 1⟩ 0 ^ 2
          + planeQ ⟨π / 2, 0, 0, π / 2, 0, 1⟩ 0 ^ 2) := by
  set oe : OrbitalElements := ⟨π / 2, 0, 0, π / 2, 0, 1⟩ with hoe
  have hE : eccentricAnomaly oe 0 = 0 := by
    simp [eccentricAnomaly, hoe, fmod_zero, keplerSolve_zero_zero]
  have hP : planeP oe 0 = semiMajorAxis oe := by
    simp [planeP, hE, hoe]
  have hQ : planeQ oe 0 = 0 := by
    simp [planeQ, hE]
  have hapos : 0 < semiMajorAxis oe := by
    unfold semiMajorAxis
    apply Real.rpow_pos_of_pos
    simp only [hoe]
    unfold G M_EARTH
    norm_num
  have hpos : getSatellitePosition oe 0 = ⟨0, semiMajorAxis oe, semiMajorAxis oe⟩ := by
    rw [getSatellitePosition_eq, hP, hQ]
    simp [hoe]
  have hmag : (getSatellitePosition oe 0).magnitude = Real.sqrt 2 * semiMajorAxis oe := by
    rw [hpos]
    unfold Vector3.magnitude
    simp only [mul_zero, zero_add]
    have : semiMajorAxis oe * semiMajorAxis oe + semiMajorAxis oe * semiMajorAxis oe
        = 2 * semiMajorAxis oe ^ 2 := by ring
    rw [this, Real.sqrt_mul (by norm_num), Real.sqrt_sq (le_of_lt hapos)]
  have hplane : Real.sqrt (planeP oe 0 ^ 2 + planeQ oe 0 ^ 2) = semiMajorAxis oe := by
    rw [hP, hQ]
    simp only [ne_eq, OfNat.ofNat_ne_zero, not_false_eq_true, zero_pow, add_zero]
    exact Real.sqrt_sq (le_of_lt hapos)
  refine ⟨hpos, hmag, hplane, by ring, hapos, ?_⟩
  rw [hmag, hplane]
  have h2 : (1 : ℝ) < Real.sqrt 2 := by
    rw [Real.lt_sqrt (by norm_num)]
    norm_num
  intro h
  nlinarith

end OrbitalRadius

end SolarSim
